import Mathlib

/-!
Verification development for the chainlink issue tracker's persistence and
relationship-integrity layer (src/chainlink/src/db.rs and the bulk import in
src/chainlink/src/commands/import.rs).

The SQLite database is embedded shallowly: each table is a list of rows kept
in primary-key (insertion) order, AUTOINCREMENT counters are tracked
explicitly, and each store method of db.rs becomes a pure function taking the
store and returning its result together with the updated store.  Timestamps
(`Utc::now().to_rfc3339()`) are inputs chosen by the environment and are
threaded through as explicit `now : String` arguments.  SQLite's engine-level
behavior that the code relies on (PRAGMA foreign_keys = ON cascade deletes,
ON DELETE SET NULL for sessions.active_issue_id, LIKE pattern matching with
ESCAPE, INSERT OR IGNORE) is modelled where the schema of init_schema
declares it.
-/

/-- A row of the `issues` table (db.rs init_schema). -/
structure IssueRow where
  id : Int
  title : String
  description : Option String
  status : String
  priority : String
  parent_id : Option Int
  created_at : String
  updated_at : String
  closed_at : Option String
deriving DecidableEq

/-- A row of the `labels` table: (issue_id, label) with set semantics. -/
structure LabelRow where
  issue_id : Int
  label : String
deriving DecidableEq

/-- A row of the `comments` table. -/
structure CommentRow where
  id : Int
  issue_id : Int
  content : String
  created_at : String
deriving DecidableEq

/-- A row of the `sessions` table. -/
structure SessionRow where
  id : Int
  started_at : String
  ended_at : Option String
  active_issue_id : Option Int
  handoff_notes : Option String
deriving DecidableEq

/-- A row of the `time_entries` table. -/
structure TimeEntryRow where
  id : Int
  issue_id : Int
  started_at : String
  ended_at : Option String
  duration_seconds : Option Int
deriving DecidableEq

/-- A row of the `relations` table (stored with the smaller id first). -/
structure RelationRow where
  issue_id_1 : Int
  issue_id_2 : Int
  created_at : String
deriving DecidableEq

/-- A row of the `milestones` table. -/
structure MilestoneRow where
  id : Int
  name : String
  description : Option String
  status : String
  created_at : String
  closed_at : Option String
deriving DecidableEq

/-- The whole database.  Dependencies are (blocker_id, blocked_id) pairs as in
the `dependencies` table; milestone_issues are (milestone_id, issue_id).
Rows are kept in insertion order, which for the tables with AUTOINCREMENT
primary keys coincides with ascending id order, so SQLite's default row order
and `ORDER BY id` need no extra sorting step. -/
structure Store where
  issues : List IssueRow
  labels : List LabelRow
  dependencies : List (Int × Int)
  comments : List CommentRow
  sessions : List SessionRow
  time_entries : List TimeEntryRow
  relations : List RelationRow
  milestones : List MilestoneRow
  milestone_issues : List (Int × Int)
  next_issue_id : Int
  next_comment_id : Int
  next_session_id : Int
  next_time_entry_id : Int
  next_milestone_id : Int
deriving DecidableEq

/-- The freshly initialized database: empty tables, AUTOINCREMENT counters
starting at 1. -/
def emptyStore : Store :=
  { issues := [], labels := [], dependencies := [], comments := [],
    sessions := [], time_entries := [], relations := [], milestones := [],
    milestone_issues := [], next_issue_id := 1, next_comment_id := 1,
    next_session_id := 1, next_time_entry_id := 1, next_milestone_id := 1 }

/-- Does an `issues` row with this id exist?  Used to model SQLite's
FOREIGN KEY enforcement (PRAGMA foreign_keys = ON). -/
def issueExists (s : Store) (id : Int) : Bool :=
  s.issues.any (fun r => r.id = id)

/-- Does a `milestones` row with this id exist? -/
def milestoneExists (s : Store) (id : Int) : Bool :=
  s.milestones.any (fun r => r.id = id)

/-- The INSERT of create_issue_with_parent: a fresh row with status 'open',
created_at = updated_at = now, and the next AUTOINCREMENT id, which is also
returned (last_insert_rowid). -/
def createIssueInsert (s : Store) (title : String) (description : Option String)
    (priority : String) (parent_id : Option Int) (now : String) :
    Except String Int × Store :=
  (Except.ok s.next_issue_id,
    { s with
      issues := s.issues ++
        [{ id := s.next_issue_id, title := title, description := description,
           status := "open", priority := priority, parent_id := parent_id,
           created_at := now, updated_at := now, closed_at := none }],
      next_issue_id := s.next_issue_id + 1 })

/-- db.rs create_issue_with_parent.  A non-null parent_id referencing no
issue row violates the parent_id FOREIGN KEY and the INSERT fails. -/
def create_issue_with_parent (s : Store) (title : String)
    (description : Option String) (priority : String)
    (parent_id : Option Int) (now : String) : Except String Int × Store :=
  match parent_id with
  | some pid =>
      if issueExists s pid then
        createIssueInsert s title description priority (some pid) now
      else (Except.error "FOREIGN KEY constraint failed", s)
  | none => createIssueInsert s title description priority none now

/-- db.rs create_issue. -/
def create_issue (s : Store) (title : String) (description : Option String)
    (priority : String) (now : String) : Except String Int × Store :=
  create_issue_with_parent s title description priority none now

/-- db.rs create_subissue. -/
def create_subissue (s : Store) (parent_id : Int) (title : String)
    (description : Option String) (priority : String) (now : String) :
    Except String Int × Store :=
  create_issue_with_parent s title description priority (some parent_id) now

/-- db.rs update_issue: partial update, absent fields keep their column,
updated_at always advances; returns whether a row matched. -/
def update_issue (s : Store) (id : Int) (title : Option String)
    (description : Option String) (priority : Option String) (now : String) :
    Bool × Store :=
  (s.issues.any (fun r => r.id = id),
    { s with
      issues := s.issues.map (fun r =>
        if r.id = id then
          { r with
            title := title.getD r.title,
            description := match description with
              | some d => some d
              | none => r.description,
            priority := priority.getD r.priority,
            updated_at := now }
        else r) })

/-- db.rs close_issue: unconditional UPDATE to status 'closed', stamping
closed_at and updated_at. -/
def close_issue (s : Store) (id : Int) (now : String) : Bool × Store :=
  (s.issues.any (fun r => r.id = id),
    { s with
      issues := s.issues.map (fun r =>
        if r.id = id then
          { r with status := "closed", closed_at := some now, updated_at := now }
        else r) })

/-- db.rs reopen_issue: unconditional UPDATE to status 'open', clearing
closed_at and stamping updated_at. -/
def reopen_issue (s : Store) (id : Int) (now : String) : Bool × Store :=
  (s.issues.any (fun r => r.id = id),
    { s with
      issues := s.issues.map (fun r =>
        if r.id = id then
          { r with status := "open", closed_at := none, updated_at := now }
        else r) })

/-- db.rs archive_issue: UPDATE ... WHERE id = ? AND status = 'closed';
the row count (and hence the returned Bool) is positive only when the issue
is currently closed. -/
def archive_issue (s : Store) (id : Int) (now : String) : Bool × Store :=
  (s.issues.any (fun r => r.id = id ∧ r.status = "closed"),
    { s with
      issues := s.issues.map (fun r =>
        if r.id = id ∧ r.status = "closed" then
          { r with status := "archived", updated_at := now }
        else r) })

/-- db.rs unarchive_issue: UPDATE ... WHERE id = ? AND status = 'archived'. -/
def unarchive_issue (s : Store) (id : Int) (now : String) : Bool × Store :=
  (s.issues.any (fun r => r.id = id ∧ r.status = "archived"),
    { s with
      issues := s.issues.map (fun r =>
        if r.id = id ∧ r.status = "archived" then
          { r with status := "closed", updated_at := now }
        else r) })

/-- db.rs archive_older_than: one UPDATE of every closed issue whose
closed_at TEXT column compares below the cutoff; returns the row count.
SQLite compares the RFC3339 TEXT values lexicographically and NULL closed_at
never satisfies the comparison. -/
def archive_older_than (s : Store) (cutoff : String) (now : String) :
    Nat × Store :=
  ((s.issues.filter (fun r =>
      decide (r.status = "closed") && r.closed_at.any (fun c => decide (c < cutoff)))).length,
    { s with
      issues := s.issues.map (fun r =>
        if decide (r.status = "closed") && r.closed_at.any (fun c => decide (c < cutoff)) then
          { r with status := "archived", updated_at := now }
        else r) })

/-- db.rs add_label: INSERT OR IGNORE, duplicate (issue_id, label) pairs are
ignored and reported as false; a missing issue violates the FOREIGN KEY. -/
def add_label (s : Store) (issue_id : Int) (label : String) :
    Except String Bool × Store :=
  if issueExists s issue_id then
    if s.labels.any (fun l => l.issue_id = issue_id ∧ l.label = label) then
      (Except.ok false, s)
    else
      (Except.ok true,
        { s with labels := s.labels ++ [{ issue_id := issue_id, label := label }] })
  else (Except.error "FOREIGN KEY constraint failed", s)

/-- db.rs remove_label. -/
def remove_label (s : Store) (issue_id : Int) (label : String) : Bool × Store :=
  (s.labels.any (fun l => l.issue_id = issue_id ∧ l.label = label),
    { s with
      labels := s.labels.filter (fun l =>
        ¬(l.issue_id = issue_id ∧ l.label = label)) })

/-- db.rs add_comment: plain INSERT returning last_insert_rowid. -/
def add_comment (s : Store) (issue_id : Int) (content : String) (now : String) :
    Except String Int × Store :=
  if issueExists s issue_id then
    (Except.ok s.next_comment_id,
      { s with
        comments := s.comments ++
          [{ id := s.next_comment_id, issue_id := issue_id, content := content,
             created_at := now }],
        next_comment_id := s.next_comment_id + 1 })
  else (Except.error "FOREIGN KEY constraint failed", s)

/-- db.rs get_blockers: blocker ids of the given issue. -/
def get_blockers (deps : List (Int × Int)) (issue_id : Int) : List Int :=
  (deps.filter (fun e => e.2 = issue_id)).map (fun e => e.1)

/-- db.rs get_blocking: the issues the given issue blocks (edges where it is
the blocker). -/
def get_blocking (deps : List (Int × Int)) (issue_id : Int) : List Int :=
  (deps.filter (fun e => e.1 = issue_id)).map (fun e => e.2)

/-- The depth-first search loop of db.rs would_create_cycle: a stack of nodes
to explore, a visited set, and the target `blocker`.  The Rust loop needs no
fuel because the visited set is bounded by the finite node set of the edge
table; here the same bound is passed explicitly as a fuel argument that is
consumed only when an unvisited node is expanded, so with fuel at least the
number of distinct nodes the 0 branch is unreachable. -/
def cycleDfs (deps : List (Int × Int)) (blocker : Int) :
    Nat → List Int → Finset Int → Bool
  | fuel, stack, visited =>
    match stack with
    | [] => false
    | current :: rest =>
      if current = blocker then true
      else if current ∈ visited then cycleDfs deps blocker fuel rest visited
      else
        match fuel with
        | 0 => false
        | fuel' + 1 =>
          cycleDfs deps blocker fuel'
            (((get_blocking deps current).filter
                (fun n => n ∉ insert current visited)) ++ rest)
            (insert current visited)
  termination_by fuel stack _ => (fuel, stack.length)

/-- The distinct node set of the dependency edge table. -/
def depNodes (deps : List (Int × Int)) : Finset Int :=
  deps.foldr (fun e acc => insert e.1 (insert e.2 acc)) ∅

/-- db.rs would_create_cycle: does `blocked_id` already reach `blocker_id`
through existing edges (following get_blocking)? -/
def would_create_cycle (deps : List (Int × Int)) (blocked_id blocker_id : Int) :
    Bool :=
  cycleDfs deps blocker_id ((depNodes deps).card + 1) [blocked_id] ∅

/-- db.rs add_dependency: rejects self-blocks, then rejects edges that would
close a cycle, then INSERT OR IGNORE of (blocker_id, blocked_id) — a
duplicate edge is reported as Ok false, and (under PRAGMA foreign_keys = ON)
an endpoint with no issue row fails the FOREIGN KEY. -/
def add_dependency (s : Store) (blocked_id blocker_id : Int) :
    Except String Bool × Store :=
  if blocked_id = blocker_id then
    (Except.error "An issue cannot block itself", s)
  else if would_create_cycle s.dependencies blocked_id blocker_id then
    (Except.error "Adding this dependency would create a circular dependency chain", s)
  else if ¬(issueExists s blocker_id ∧ issueExists s blocked_id) then
    (Except.error "FOREIGN KEY constraint failed", s)
  else if (blocker_id, blocked_id) ∈ s.dependencies then
    (Except.ok false, s)
  else
    (Except.ok true,
      { s with dependencies := s.dependencies ++ [(blocker_id, blocked_id)] })

/-- db.rs remove_dependency. -/
def remove_dependency (s : Store) (blocked_id blocker_id : Int) : Bool × Store :=
  ((blocker_id, blocked_id) ∈ s.dependencies,
    { s with
      dependencies := s.dependencies.filter
        (fun e => ¬(e.1 = blocker_id ∧ e.2 = blocked_id)) })

/-- Does issue `i` have an open blocker: some dependency row with
blocked_id = i.id whose blocker_id joins to an issue row with status open.
This is the join condition shared by list_blocked_issues and
list_ready_issues. -/
def hasOpenBlocker (s : Store) (i : IssueRow) : Bool :=
  s.dependencies.any (fun d =>
    decide (d.2 = i.id) &&
      s.issues.any (fun blocker => blocker.id = d.1 ∧ blocker.status = "open"))

/-- db.rs list_blocked_issues: open issues with at least one open blocker
(SELECT DISTINCT ... JOIN dependencies JOIN issues ... ORDER BY i.id). -/
def list_blocked_issues (s : Store) : List IssueRow :=
  s.issues.filter (fun i => decide (i.status = "open") && hasOpenBlocker s i)

/-- db.rs list_ready_issues: open issues for which the open-blocker
NOT EXISTS subquery is empty (ORDER BY i.id). -/
def list_ready_issues (s : Store) : List IssueRow :=
  s.issues.filter (fun i => decide (i.status = "open") && !hasOpenBlocker s i)

/-- The ids of the direct subissues of `p`: rows whose parent_id FOREIGN KEY
references `p` (each carries ON DELETE CASCADE). -/
def childIds (issues : List IssueRow) (p : Int) : List Int :=
  (issues.filter (fun r => r.parent_id = some p)).map (fun r => r.id)

/-- The transitive closure collected by SQLite's recursive ON DELETE CASCADE
along issues.parent_id, as a worklist traversal: every row whose parent
chain reaches the deleted id is deleted as well.  Fuel as in cycleDfs. -/
def cascadeSet (issues : List IssueRow) :
    Nat → List Int → Finset Int → Finset Int
  | fuel, stack, visited =>
    match stack with
    | [] => visited
    | current :: rest =>
      if current ∈ visited then cascadeSet issues fuel rest visited
      else
        match fuel with
        | 0 => visited
        | fuel' + 1 =>
          cascadeSet issues fuel'
            (childIds issues current ++ rest) (insert current visited)
  termination_by fuel stack _ => (fuel, stack.length)

/-- The distinct id set of the issues table. -/
def issueIdNodes (issues : List IssueRow) : Finset Int :=
  issues.foldr (fun r acc => insert r.id acc) ∅

/-- All issue ids removed by DELETE FROM issues WHERE id = ?: the id itself
plus its recursive subissues. -/
def deletedSet (issues : List IssueRow) (id : Int) : Finset Int :=
  cascadeSet issues ((issueIdNodes issues).card + 1) [id] ∅

/-- db.rs delete_issue: DELETE FROM issues WHERE id = ?, with SQLite's
foreign-key actions from init_schema: recursive CASCADE over parent_id,
CASCADE on labels, comments, dependencies (both endpoints), time_entries,
relations (both sides) and milestone_issues, and ON DELETE SET NULL on
sessions.active_issue_id.  If no row has the id, zero rows are affected and
nothing cascades. -/
def delete_issue (s : Store) (id : Int) : Bool × Store :=
  if issueExists s id then
    let del := deletedSet s.issues id
    (true,
      { s with
        issues := s.issues.filter (fun r => r.id ∉ del),
        labels := s.labels.filter (fun l => l.issue_id ∉ del),
        dependencies := s.dependencies.filter (fun d => d.1 ∉ del ∧ d.2 ∉ del),
        comments := s.comments.filter (fun c => c.issue_id ∉ del),
        time_entries := s.time_entries.filter (fun t => t.issue_id ∉ del),
        relations := s.relations.filter (fun r =>
          r.issue_id_1 ∉ del ∧ r.issue_id_2 ∉ del),
        milestone_issues := s.milestone_issues.filter (fun m => m.2 ∉ del),
        sessions := s.sessions.map (fun t =>
          match t.active_issue_id with
          | some a => if a ∈ del then { t with active_issue_id := none } else t
          | none => t) })
  else (false, s)

/-- db.rs start_session: INSERT with only started_at set. -/
def start_session (s : Store) (now : String) : Int × Store :=
  (s.next_session_id,
    { s with
      sessions := s.sessions ++
        [{ id := s.next_session_id, started_at := now, ended_at := none,
           active_issue_id := none, handoff_notes := none }],
      next_session_id := s.next_session_id + 1 })

/-- db.rs end_session: UPDATE ended_at and handoff_notes WHERE id = ?. -/
def end_session (s : Store) (id : Int) (notes : Option String) (now : String) :
    Bool × Store :=
  (s.sessions.any (fun t => t.id = id),
    { s with
      sessions := s.sessions.map (fun t =>
        if t.id = id then { t with ended_at := some now, handoff_notes := notes }
        else t) })

/-- db.rs set_session_issue: UPDATE sessions SET active_issue_id WHERE id = ?;
when a row is updated, the new active_issue_id must satisfy its FOREIGN KEY. -/
def set_session_issue (s : Store) (session_id issue_id : Int) :
    Except String Bool × Store :=
  if s.sessions.any (fun t => t.id = session_id) then
    if issueExists s issue_id then
      (Except.ok true,
        { s with
          sessions := s.sessions.map (fun t =>
            if t.id = session_id then { t with active_issue_id := some issue_id }
            else t) })
    else (Except.error "FOREIGN KEY constraint failed", s)
  else (Except.ok false, s)

/-- db.rs start_timer: INSERT a time entry with no ended_at. -/
def start_timer (s : Store) (issue_id : Int) (now : String) :
    Except String Int × Store :=
  if issueExists s issue_id then
    (Except.ok s.next_time_entry_id,
      { s with
        time_entries := s.time_entries ++
          [{ id := s.next_time_entry_id, issue_id := issue_id, started_at := now,
             ended_at := none, duration_seconds := none }],
        next_time_entry_id := s.next_time_entry_id + 1 })
  else (Except.error "FOREIGN KEY constraint failed", s)

/-- db.rs stop_timer: if an entry for the issue with NULL ended_at exists,
stamp ended_at and the duration (computed in the Rust from the wall clock;
here, like `now`, an input from the environment) on every such entry. -/
def stop_timer (s : Store) (issue_id : Int) (now : String) (duration : Int) :
    Bool × Store :=
  if s.time_entries.any (fun t => t.issue_id = issue_id ∧ t.ended_at = none) then
    (true,
      { s with
        time_entries := s.time_entries.map (fun t =>
          if t.issue_id = issue_id ∧ t.ended_at = none then
            { t with ended_at := some now, duration_seconds := some duration }
          else t) })
  else (false, s)

/-- db.rs add_relation: rejects self-relations, canonicalizes to the smaller
id first, then INSERT OR IGNORE (duplicates reported as Ok false, missing
endpoints fail the FOREIGN KEY). -/
def add_relation (s : Store) (issue_id_1 issue_id_2 : Int) (now : String) :
    Except String Bool × Store :=
  if issue_id_1 = issue_id_2 then
    (Except.error "Cannot relate an issue to itself", s)
  else
    let a := if issue_id_1 < issue_id_2 then issue_id_1 else issue_id_2
    let b := if issue_id_1 < issue_id_2 then issue_id_2 else issue_id_1
    if ¬(issueExists s a ∧ issueExists s b) then
      (Except.error "FOREIGN KEY constraint failed", s)
    else if s.relations.any (fun r => r.issue_id_1 = a ∧ r.issue_id_2 = b) then
      (Except.ok false, s)
    else
      (Except.ok true,
        { s with
          relations := s.relations ++
            [{ issue_id_1 := a, issue_id_2 := b, created_at := now }] })

/-- db.rs remove_relation. -/
def remove_relation (s : Store) (issue_id_1 issue_id_2 : Int) : Bool × Store :=
  let a := if issue_id_1 < issue_id_2 then issue_id_1 else issue_id_2
  let b := if issue_id_1 < issue_id_2 then issue_id_2 else issue_id_1
  (s.relations.any (fun r => r.issue_id_1 = a ∧ r.issue_id_2 = b),
    { s with
      relations := s.relations.filter (fun r =>
        ¬(r.issue_id_1 = a ∧ r.issue_id_2 = b)) })

/-- db.rs update_parent: UPDATE issues SET parent_id, updated_at WHERE id = ?;
a non-null new parent_id must satisfy the FOREIGN KEY when a row is updated. -/
def update_parent (s : Store) (id : Int) (parent_id : Option Int) (now : String) :
    Except String Bool × Store :=
  if issueExists s id then
    match parent_id with
    | some pid =>
        if issueExists s pid then
          (Except.ok true,
            { s with
              issues := s.issues.map (fun r =>
                if r.id = id then { r with parent_id := some pid, updated_at := now }
                else r) })
        else (Except.error "FOREIGN KEY constraint failed", s)
    | none =>
        (Except.ok true,
          { s with
            issues := s.issues.map (fun r =>
              if r.id = id then { r with parent_id := none, updated_at := now }
              else r) })
  else (Except.ok false, s)

/-- db.rs create_milestone. -/
def create_milestone (s : Store) (name : String) (description : Option String)
    (now : String) : Int × Store :=
  (s.next_milestone_id,
    { s with
      milestones := s.milestones ++
        [{ id := s.next_milestone_id, name := name, description := description,
           status := "open", created_at := now, closed_at := none }],
      next_milestone_id := s.next_milestone_id + 1 })

/-- db.rs add_issue_to_milestone: INSERT OR IGNORE into milestone_issues. -/
def add_issue_to_milestone (s : Store) (milestone_id issue_id : Int) :
    Except String Bool × Store :=
  if ¬(milestoneExists s milestone_id ∧ issueExists s issue_id) then
    (Except.error "FOREIGN KEY constraint failed", s)
  else if (milestone_id, issue_id) ∈ s.milestone_issues then
    (Except.ok false, s)
  else
    (Except.ok true,
      { s with
        milestone_issues := s.milestone_issues ++ [(milestone_id, issue_id)] })

/-- db.rs remove_issue_from_milestone. -/
def remove_issue_from_milestone (s : Store) (milestone_id issue_id : Int) :
    Bool × Store :=
  ((milestone_id, issue_id) ∈ s.milestone_issues,
    { s with
      milestone_issues := s.milestone_issues.filter (fun m =>
        ¬(m.1 = milestone_id ∧ m.2 = issue_id)) })

/-- db.rs close_milestone: UPDATE status and closed_at WHERE id = ?. -/
def close_milestone (s : Store) (id : Int) (now : String) : Bool × Store :=
  (s.milestones.any (fun m => m.id = id),
    { s with
      milestones := s.milestones.map (fun m =>
        if m.id = id then { m with status := "closed", closed_at := some now }
        else m) })

/-- db.rs delete_milestone: DELETE FROM milestones WHERE id = ?; the
milestone_issues memberships CASCADE away. -/
def delete_milestone (s : Store) (id : Int) : Bool × Store :=
  (s.milestones.any (fun m => m.id = id),
    { s with
      milestones := s.milestones.filter (fun m => ¬m.id = id),
      milestone_issues := s.milestone_issues.filter (fun m => ¬m.1 = id) })

/-- ASCII lower-casing, as performed by SQLite's case-insensitive LIKE. -/
def lowerChar (c : Char) : Char :=
  if 'A' ≤ c ∧ c ≤ 'Z' then Char.ofNat (c.toNat + 32) else c

/-- Zero-or-more-character wildcard: try the continuation on every suffix of
the text (the '%' case of SQLite LIKE). -/
def matchSuffixes (k : List Char → Bool) : List Char → Bool
  | [] => k []
  | c :: ts => k (c :: ts) || matchSuffixes k ts

/-- SQLite LIKE ... ESCAPE, case-insensitive, over the pattern (first
argument) and the text: '%' matches any run, '_' any single character, a
backslash (the ESCAPE character of search_issues) makes the next pattern
character literal, and everything else matches one character up to ASCII
case; a trailing lone escape character matches nothing. -/
def likeMatch : List Char → List Char → Bool
  | [], t => t.isEmpty
  | '%' :: ps, t => matchSuffixes (likeMatch ps) t
  | '_' :: ps, t =>
      match t with
      | [] => false
      | _ :: ts => likeMatch ps ts
  | '\\' :: p2 :: ps, t =>
      match t with
      | [] => false
      | c :: ts => if lowerChar c = lowerChar p2 then likeMatch ps ts else false
  | ['\\'], _ => false
  | pc :: ps, t =>
      match t with
      | [] => false
      | c :: ts => if lowerChar c = lowerChar pc then likeMatch ps ts else false

/-- Rust str::replace for a single-character needle: every occurrence of `c`
is replaced by `r`. -/
def replaceChar (c : Char) (r : List Char) : List Char → List Char
  | [] => []
  | x :: xs => (if x = c then r else [x]) ++ replaceChar c r xs

/-- The escaping step of db.rs search_issues:
query.replace('%', "\\%").replace('_', "\\_"). -/
def escapeQuery (q : List Char) : List Char :=
  replaceChar '_' ['\\', '_'] (replaceChar '%' ['\\', '%'] q)

/-- The LIKE pattern of db.rs search_issues: format!("%{}%", escaped). -/
def likePattern (q : String) : List Char :=
  '%' :: (escapeQuery q.toList ++ ['%'])

/-- The WHERE clause of search_issues for one issue row: title, description
or any of the issue's comments matches the pattern (a NULL description or a
row without comments contributes nothing). -/
def rowMatchesSearch (s : Store) (pat : List Char) (i : IssueRow) : Bool :=
  likeMatch pat i.title.toList ||
    (match i.description with
     | some d => likeMatch pat d.toList
     | none => false) ||
    s.comments.any (fun c => decide (c.issue_id = i.id) && likeMatch pat c.content.toList)

/-- db.rs search_issues: SELECT DISTINCT over issues LEFT JOIN comments with
the three LIKE ... ESCAPE clauses, ORDER BY i.id DESC (rows are kept in
ascending id order, so descending order is the reverse). -/
def search_issues (s : Store) (query : String) : List IssueRow :=
  (s.issues.filter (rowMatchesSearch s (likePattern query))).reverse

/-- db.rs Database::transaction: BEGIN, run the body, COMMIT its state on Ok,
ROLLBACK to the pre-transaction state on Err, returning the body's error
unchanged.  The body receives the current store and returns its result
together with the mutated store. -/
def transaction {T : Type} (s : Store) (f : Store → Except String (T × Store)) :
    Except String T × Store :=
  match f s with
  | Except.ok (t, s') => (Except.ok t, s')
  | Except.error e => (Except.error e, s)

/-- The comment part of the export wire format consumed by the bulk import
(commands/import.rs uses only the content field of each exported comment). -/
structure ExportedComment where
  content : String
deriving DecidableEq

/-- The per-issue external representation consumed by commands/import.rs
run_json (fields as constructed and read there). -/
structure ExportedIssue where
  id : Int
  title : String
  description : Option String
  status : String
  priority : String
  parent_id : Option Int
  labels : List String
  comments : List ExportedComment
deriving DecidableEq

/-- The add_label loop of commands/import.rs import_issue; the ? operator
aborts the body on the first error. -/
def importLabels : Store → Int → List String → Except String Store
  | s, _, [] => Except.ok s
  | s, id, l :: ls =>
    match add_label s id l with
    | (Except.error e, _) => Except.error e
    | (Except.ok _, s') => importLabels s' id ls

/-- The add_comment loop of commands/import.rs import_issue. -/
def importComments : Store → Int → String → List ExportedComment → Except String Store
  | s, _, _, [] => Except.ok s
  | s, id, now, c :: cs =>
    match add_comment s id c.content now with
    | (Except.error e, _) => Except.error e
    | (Except.ok _, s') => importComments s' id now cs

/-- commands/import.rs import_issue: create the issue (as a subissue when a
parent id is supplied), add its labels and comments, close it when the
exported status was closed; returns the new id. -/
def import_issue (s : Store) (issue : ExportedIssue) (parent_id : Option Int)
    (now : String) : Except String (Int × Store) :=
  match (match parent_id with
         | some pid =>
             create_subissue s pid issue.title issue.description issue.priority now
         | none =>
             create_issue s issue.title issue.description issue.priority now) with
  | (Except.error e, _) => Except.error e
  | (Except.ok id, s1) =>
    match importLabels s1 id issue.labels with
    | Except.error e => Except.error e
    | Except.ok s2 =>
      match importComments s2 id now issue.comments with
      | Except.error e => Except.error e
      | Except.ok s3 =>
        if issue.status = "closed" then Except.ok (id, (close_issue s3 id now).2)
        else Except.ok (id, s3)

/-- First pass of commands/import.rs run_json: create every issue without a
parent, recording old id → new id (HashMap insert overwrites, so the most
recent binding is found first). -/
def importPass1 : Store → List (Int × Int) → List ExportedIssue → String →
    Except String (List (Int × Int) × Store)
  | s, idMap, [], _ => Except.ok (idMap, s)
  | s, idMap, issue :: rest, now =>
    match import_issue s issue none now with
    | Except.error e => Except.error e
    | Except.ok (newId, s') => importPass1 s' ((issue.id, newId) :: idMap) rest now

/-- Second pass of commands/import.rs run_json: re-link parent references by
originally exported id; missing map entries are skipped silently. -/
def importPass2 : Store → List (Int × Int) → List ExportedIssue → String →
    Except String Store
  | s, _, [], _ => Except.ok s
  | s, idMap, issue :: rest, now =>
    match issue.parent_id with
    | some oldParent =>
      match idMap.lookup oldParent, idMap.lookup issue.id with
      | some newParent, some newId =>
        match update_parent s newId (some newParent) now with
        | (Except.error e, _) => Except.error e
        | (Except.ok _, s') => importPass2 s' idMap rest now
      | _, _ => importPass2 s idMap rest now
    | none => importPass2 s idMap rest now

/-- The closure commands/import.rs run_json passes to Database::transaction:
both passes, returning the number of imported issues. -/
def import_body (data : List ExportedIssue) (now : String) (s : Store) :
    Except String (Nat × Store) :=
  match importPass1 s [] data now with
  | Except.error e => Except.error e
  | Except.ok (idMap, s1) =>
    match importPass2 s1 idMap data now with
    | Except.error e => Except.error e
    | Except.ok s2 => Except.ok (data.length, s2)

/-- One mutating store operation of db.rs, with every environment input
(caller-supplied text and ids, wall-clock strings, computed durations) as an
explicit argument. -/
inductive Op where
  | createIssue (title : String) (description : Option String) (priority : String)
      (now : String)
  | createSubissue (parent_id : Int) (title : String) (description : Option String)
      (priority : String) (now : String)
  | updateIssue (id : Int) (title : Option String) (description : Option String)
      (priority : Option String) (now : String)
  | closeIssue (id : Int) (now : String)
  | reopenIssue (id : Int) (now : String)
  | deleteIssue (id : Int)
  | addLabel (issue_id : Int) (label : String)
  | removeLabel (issue_id : Int) (label : String)
  | addComment (issue_id : Int) (content : String) (now : String)
  | addDependency (blocked_id blocker_id : Int)
  | removeDependency (blocked_id blocker_id : Int)
  | startSession (now : String)
  | endSession (id : Int) (notes : Option String) (now : String)
  | setSessionIssue (session_id issue_id : Int)
  | startTimer (issue_id : Int) (now : String)
  | stopTimer (issue_id : Int) (now : String) (duration : Int)
  | addRelation (issue_id_1 issue_id_2 : Int) (now : String)
  | removeRelation (issue_id_1 issue_id_2 : Int)
  | updateParent (id : Int) (parent_id : Option Int) (now : String)
  | createMilestone (name : String) (description : Option String) (now : String)
  | addIssueToMilestone (milestone_id issue_id : Int)
  | removeIssueFromMilestone (milestone_id issue_id : Int)
  | closeMilestone (id : Int) (now : String)
  | deleteMilestone (id : Int)
  | archiveIssue (id : Int) (now : String)
  | unarchiveIssue (id : Int) (now : String)
  | archiveOlderThan (cutoff : String) (now : String)

/-- The store state after one operation (the result value, or the error of a
rejected mutation, leaves the store exactly as the operation's definition
says, so the state component is all that reachability needs). -/
def applyOp (op : Op) (s : Store) : Store :=
  match op with
  | Op.createIssue t d p now => (create_issue s t d p now).2
  | Op.createSubissue pid t d p now => (create_subissue s pid t d p now).2
  | Op.updateIssue id t d p now => (update_issue s id t d p now).2
  | Op.closeIssue id now => (close_issue s id now).2
  | Op.reopenIssue id now => (reopen_issue s id now).2
  | Op.deleteIssue id => (delete_issue s id).2
  | Op.addLabel id l => (add_label s id l).2
  | Op.removeLabel id l => (remove_label s id l).2
  | Op.addComment id c now => (add_comment s id c now).2
  | Op.addDependency blocked blocker => (add_dependency s blocked blocker).2
  | Op.removeDependency blocked blocker => (remove_dependency s blocked blocker).2
  | Op.startSession now => (start_session s now).2
  | Op.endSession id notes now => (end_session s id notes now).2
  | Op.setSessionIssue sid iid => (set_session_issue s sid iid).2
  | Op.startTimer iid now => (start_timer s iid now).2
  | Op.stopTimer iid now dur => (stop_timer s iid now dur).2
  | Op.addRelation a b now => (add_relation s a b now).2
  | Op.removeRelation a b => (remove_relation s a b).2
  | Op.updateParent id pid now => (update_parent s id pid now).2
  | Op.createMilestone n d now => (create_milestone s n d now).2
  | Op.addIssueToMilestone mid iid => (add_issue_to_milestone s mid iid).2
  | Op.removeIssueFromMilestone mid iid => (remove_issue_from_milestone s mid iid).2
  | Op.closeMilestone id now => (close_milestone s id now).2
  | Op.deleteMilestone id => (delete_milestone s id).2
  | Op.archiveIssue id now => (archive_issue s id now).2
  | Op.unarchiveIssue id now => (unarchive_issue s id now).2
  | Op.archiveOlderThan cutoff now => (archive_older_than s cutoff now).2

/-- The stores reachable from a freshly initialized database by any sequence
of store operations. -/
inductive ReachableStore : Store → Prop
  | empty : ReachableStore emptyStore
  | step (op : Op) (s : Store) : ReachableStore s → ReachableStore (applyOp op s)

/-- One blocker edge: x blocks y, i.e. the dependencies table holds
(blocker_id = x, blocked_id = y). -/
def DepStep (deps : List (Int × Int)) (x y : Int) : Prop := (x, y) ∈ deps

/-- x transitively blocks y (a possibly empty chain of blocker edges). -/
def Reaches (deps : List (Int × Int)) (a b : Int) : Prop :=
  Relation.ReflTransGen (DepStep deps) a b

/-- No directed cycle: no edge whose endpoints are joined by a returning
chain, equivalently no nonempty cycle of blocker edges. -/
def Acyclic (deps : List (Int × Int)) : Prop :=
  ∀ x y, DepStep deps x y → ¬Reaches deps y x

/-- c is a direct subissue of p in the given issues table. -/
def ChildStep (issues : List IssueRow) (p c : Int) : Prop :=
  ∃ r ∈ issues, r.id = c ∧ r.parent_id = some p

/-- x is root itself or one of its recursive subissues. -/
def SubissueOf (issues : List IssueRow) (root x : Int) : Prop :=
  Relation.ReflTransGen (ChildStep issues) root x

/-- t contains q as a case-insensitive (ASCII) substring. -/
def ContainsCI (q t : String) : Prop :=
  ∃ a b, t.toList.map lowerChar = a ++ q.toList.map lowerChar ++ b

/-- A minimal issue row for concrete test stores. -/
def mkIssue (id : Int) (title status : String) (closed_at : Option String) :
    IssueRow :=
  { id := id, title := title, description := none, status := status,
    priority := "medium", parent_id := none,
    created_at := "2024-01-01T00:00:00+00:00",
    updated_at := "2024-01-01T00:00:00+00:00", closed_at := closed_at }

/-- Two open issues where issue 2 blocks issue 1. -/
def stDep : Store :=
  { emptyStore with
    issues := [mkIssue 1 "A" "open" none, mkIssue 2 "B" "open" none],
    dependencies := [(2, 1)], next_issue_id := 3 }

/-- A parent issue 1 with subissue 2 and one row in every dependent table,
plus a session whose active issue is 1. -/
def stCascade : Store :=
  { emptyStore with
    issues := [mkIssue 1 "Parent" "open" none,
               { id := 2, title := "Child", description := none,
                 status := "open", priority := "medium", parent_id := some 1,
                 created_at := "2024-01-01T00:00:00+00:00",
                 updated_at := "2024-01-01T00:00:00+00:00", closed_at := none }],
    labels := [{ issue_id := 1, label := "bug" }],
    dependencies := [(1, 2)],
    comments := [{ id := 1, issue_id := 1, content := "note",
                   created_at := "2024-01-01T00:00:00+00:00" }],
    sessions := [{ id := 1, started_at := "2024-01-01T00:00:00+00:00",
                   ended_at := none, active_issue_id := some 1,
                   handoff_notes := none }],
    relations := [{ issue_id_1 := 1, issue_id_2 := 2,
                    created_at := "2024-01-01T00:00:00+00:00" }],
    milestones := [{ id := 1, name := "v1", description := none,
                     status := "open", created_at := "2024-01-01T00:00:00+00:00",
                     closed_at := none }],
    milestone_issues := [(1, 1)],
    next_issue_id := 3, next_comment_id := 2, next_session_id := 2,
    next_milestone_id := 2 }

/-- One issue whose title ends in a literal percent sign. -/
def stSearch : Store :=
  { emptyStore with issues := [mkIssue 1 "ab%" "open" none], next_issue_id := 2 }

/-- One issue whose title ends in a literal percent sign, for the
backslash-query observation. -/
def stSearch2 : Store :=
  { emptyStore with
    issues := [mkIssue 1 "sale -50%" "open" none],
    next_issue_id := 2 }

/-- The two titles of the spec's literal-wildcard example. -/
def stTwoTitles : Store :=
  { emptyStore with
    issues := [mkIssue 1 "foo%barbaz" "open" none,
               mkIssue 2 "foobarbaz" "open" none],
    next_issue_id := 3 }

/-- The status transitions a single store operation can perform on an issue
whose status is one of open, closed, archived: staying put, open to closed
(close), closed to open (reopen), closed to archived (archive), archived to
closed (unarchive, or an unguarded close), and archived to open (an
unguarded reopen). -/
def StatusTransitionOK (a b : String) : Prop :=
  a = b ∨ (a = "open" ∧ b = "closed") ∨ (a = "closed" ∧ b = "open") ∨
    (a = "closed" ∧ b = "archived") ∨ (a = "archived" ∧ b = "closed") ∨
    (a = "archived" ∧ b = "open")


theorem mem_get_blocking {deps : List (Int × Int)} {x y : Int} :
    y ∈ get_blocking deps x ↔ (x, y) ∈ deps := by
  simp only [get_blocking, List.mem_map, List.mem_filter, decide_eq_true_eq]
  constructor
  · rintro ⟨⟨a, b⟩, ⟨hmem, h1⟩, h2⟩
    subst h1
    subst h2
    exact hmem
  · intro h
    exact ⟨(x, y), ⟨h, rfl⟩, rfl⟩

theorem snd_mem_depNodes {deps : List (Int × Int)} {p : Int × Int}
    (h : p ∈ deps) : p.2 ∈ depNodes deps := by
  induction deps with
  | nil => simp at h
  | cons q rest ih =>
    rcases List.mem_cons.mp h with h | h
    · subst h
      simp [depNodes]
    · simp only [depNodes, List.foldr_cons] at *
      exact Finset.mem_insert_of_mem (Finset.mem_insert_of_mem (ih h))

theorem not_reaches_of_closed {deps : List (Int × Int)} {V : Finset Int}
    {blocker : Int}
    (hcl : ∀ v ∈ V, v ≠ blocker ∧ ∀ w, DepStep deps v w → w ∈ V) :
    ∀ x, x ∈ V → ¬Reaches deps x blocker := by
  have key : ∀ x, Reaches deps x blocker → x ∈ V → False := by
    intro x hr
    induction hr using Relation.ReflTransGen.head_induction_on with
    | refl => intro hb; exact (hcl _ hb).1 rfl
    | head hstep _ ih => intro hx; exact ih ((hcl _ hx).2 _ hstep)
  exact fun x hx hr => key x hr hx

theorem cycleDfs_false_not_reaches (deps : List (Int × Int)) (blocker : Int)
    (U : Finset Int) (hU : ∀ p : Int × Int, p ∈ deps → p.2 ∈ U) :
    ∀ (fuel : Nat) (stack : List Int) (visited : Finset Int),
      (∀ x ∈ stack, x ∈ U) → visited ⊆ U → U.card ≤ fuel + visited.card →
      (∀ v ∈ visited, v ≠ blocker ∧
        ∀ w, DepStep deps v w → w ∈ visited ∨ w ∈ stack) →
      cycleDfs deps blocker fuel stack visited = false →
      ∀ x, x ∈ stack ∨ x ∈ visited → ¬Reaches deps x blocker := by
  intro fuel stack visited
  induction fuel, stack, visited using cycleDfs.induct deps blocker with
  | case1 fuel visited =>
    intro _ _ _ hinv _ x hx
    rcases hx with h | h
    · simp at h
    · refine not_reaches_of_closed ?_ x h
      intro v hv
      refine ⟨(hinv v hv).1, fun w hw => ?_⟩
      rcases (hinv v hv).2 w hw with h' | h'
      · exact h'
      · simp at h'
  | case2 fuel visited rest =>
    intro _ _ _ _ hfalse
    rw [cycleDfs.eq_def] at hfalse
    simp at hfalse
  | case3 fuel visited current rest hne hmem ih =>
    intro hstack hVU hcard hinv hfalse
    rw [cycleDfs.eq_def] at hfalse
    simp only [if_neg hne, if_pos hmem] at hfalse
    have concl := ih (fun x hx => hstack x (List.mem_cons_of_mem _ hx)) hVU hcard
      (fun v hv => ⟨(hinv v hv).1, fun w hw => by
        rcases (hinv v hv).2 w hw with h' | h'
        · exact Or.inl h'
        · rcases List.mem_cons.mp h' with h'' | h''
          · exact Or.inl (h'' ▸ hmem)
          · exact Or.inr h''⟩) hfalse
    intro x hx
    rcases hx with hx | hx
    · rcases List.mem_cons.mp hx with hx' | hx'
      · exact hx' ▸ concl current (Or.inr hmem)
      · exact concl x (Or.inl hx')
    · exact concl x (Or.inr hx)
  | case4 visited current rest hne hnmem =>
    intro hstack hVU hcard _ _
    exfalso
    have : visited = U :=
      Finset.eq_of_subset_of_card_le hVU (by simpa using hcard)
    exact hnmem (this ▸ hstack current (List.mem_cons_self _ _))
  | case5 visited current rest hne hnmem fuel' ih =>
    intro hstack hVU hcard hinv hfalse
    rw [cycleDfs.eq_def] at hfalse
    simp only [if_neg hne, if_neg hnmem] at hfalse
    have hcurU : current ∈ U := hstack current (List.mem_cons_self _ _)
    have hstack' : ∀ x ∈ (get_blocking deps current).filter
        (fun n => n ∉ insert current visited) ++ rest, x ∈ U := by
      intro x hx
      rcases List.mem_append.mp hx with hx | hx
      · have hx' := (List.mem_filter.mp hx).1
        exact hU _ (mem_get_blocking.mp hx')
      · exact hstack x (List.mem_cons_of_mem _ hx)
    have hVU' : insert current visited ⊆ U := Finset.insert_subset hcurU hVU
    have hcard' : U.card ≤ fuel' + (insert current visited).card := by
      rw [Finset.card_insert_of_not_mem hnmem]
      omega
    have hinv' : ∀ v ∈ insert current visited, v ≠ blocker ∧
        ∀ w, DepStep deps v w → w ∈ insert current visited ∨
          w ∈ (get_blocking deps current).filter
            (fun n => n ∉ insert current visited) ++ rest := by
      intro v hv
      rcases Finset.mem_insert.mp hv with hv' | hv'
      · subst hv'
        refine ⟨hne, fun w hw => ?_⟩
        by_cases hwv : w ∈ insert v visited
        · exact Or.inl hwv
        · refine Or.inr (List.mem_append.mpr (Or.inl ?_))
          refine List.mem_filter.mpr ⟨mem_get_blocking.mpr hw, ?_⟩
          simpa using hwv
      · refine ⟨(hinv v hv').1, fun w hw => ?_⟩
        rcases (hinv v hv').2 w hw with h' | h'
        · exact Or.inl (Finset.mem_insert_of_mem h')
        · rcases List.mem_cons.mp h' with h'' | h''
          · exact Or.inl (h'' ▸ Finset.mem_insert_self _ _)
          · exact Or.inr (List.mem_append.mpr (Or.inr h''))
    have concl := ih hstack' hVU' hcard' hinv' hfalse
    intro x hx
    rcases hx with hx | hx
    · rcases List.mem_cons.mp hx with hx' | hx'
      · exact hx' ▸ concl current (Or.inr (Finset.mem_insert_self _ _))
      · exact concl x (Or.inl (List.mem_append.mpr (Or.inr hx')))
    · exact concl x (Or.inr (Finset.mem_insert_of_mem hx))

theorem would_create_cycle_false {deps : List (Int × Int)} {blocked blocker : Int}
    (h : would_create_cycle deps blocked blocker = false) :
    ¬Reaches deps blocked blocker := by
  refine cycleDfs_false_not_reaches deps blocker (insert blocked (depNodes deps))
    (fun p hp => Finset.mem_insert_of_mem (snd_mem_depNodes hp))
    ((depNodes deps).card + 1) [blocked] ∅ ?_ ?_ ?_ ?_ h blocked (Or.inl ?_)
  · intro x hx
    rcases List.mem_cons.mp hx with hx | hx
    · exact hx ▸ Finset.mem_insert_self _ _
    · simp at hx
  · exact Finset.empty_subset _
  · simpa using Finset.card_insert_le _ _
  · intro v hv
    simp at hv
  · exact List.mem_cons_self _ _

theorem would_create_cycle_true_of_reaches {deps : List (Int × Int)}
    {blocked blocker : Int} (h : Reaches deps blocked blocker) :
    would_create_cycle deps blocked blocker = true := by
  by_contra hfalse
  exact would_create_cycle_false (Bool.not_eq_true _ ▸ hfalse) h

theorem reaches_mono {deps deps' : List (Int × Int)}
    (hsub : ∀ p, p ∈ deps' → p ∈ deps) {a b : Int} (h : Reaches deps' a b) :
    Reaches deps a b :=
  Relation.ReflTransGen.mono (fun x y hxy => hsub (x, y) hxy) h

theorem acyclic_of_sub {deps deps' : List (Int × Int)}
    (hsub : ∀ p, p ∈ deps' → p ∈ deps) (h : Acyclic deps) : Acyclic deps' :=
  fun x y hxy hr => h x y (hsub _ hxy) (reaches_mono hsub hr)

theorem reaches_append_single {deps : List (Int × Int)} {u v a b : Int}
    (hnv : ¬Reaches deps v u) (h : Reaches (deps ++ [(u, v)]) a b) :
    Reaches deps a b ∨ (Reaches deps a u ∧ Reaches deps v b) := by
  induction h with
  | refl => exact Or.inl Relation.ReflTransGen.refl
  | tail _ hstep ih =>
    have hstep' := hstep
    rw [DepStep, List.mem_append] at hstep'
    rcases hstep' with hold | hnew
    · rcases ih with ih | ⟨ihu, ihv⟩
      · exact Or.inl (ih.tail hold)
      · exact Or.inr ⟨ihu, ihv.tail hold⟩
    · simp only [List.mem_singleton, Prod.mk.injEq] at hnew
      rcases ih with ih | ⟨_, ihv⟩
      · exact Or.inr ⟨hnew.1 ▸ ih, hnew.2 ▸ Relation.ReflTransGen.refl⟩
      · exact absurd (hnew.1 ▸ ihv) hnv

theorem acyclic_insert {deps : List (Int × Int)} {u v : Int}
    (hac : Acyclic deps) (hnv : ¬Reaches deps v u) :
    Acyclic (deps ++ [(u, v)]) := by
  intro x y hxy hr
  have hxy' : (x, y) ∈ deps ∨ (x = u ∧ y = v) := by
    simpa [DepStep, Prod.ext_iff] using hxy
  rcases reaches_append_single hnv hr with hold | ⟨hyu, hvx⟩
  · rcases hxy' with h | ⟨hx, hy⟩
    · exact hac x y h hold
    · subst hx; subst hy; exact hnv hold
  · rcases hxy' with h | ⟨hx, hy⟩
    · exact hnv ((hvx.tail h).trans hyu)
    · subst hx; subst hy; exact hnv hyu

theorem acyclic_applyOp (op : Op) (s : Store) (h : Acyclic s.dependencies) :
    Acyclic (applyOp op s).dependencies := by
  cases op with
  | addDependency blocked blocker =>
    simp only [applyOp, add_dependency]
    split
    · exact h
    · split
      · exact h
      · split
        · exact h
        · split
          · exact h
          · rename_i hwcc _ _
            simp only
            exact acyclic_insert h
              (would_create_cycle_false (Bool.of_not_eq_true hwcc))
  | removeDependency blocked blocker =>
    simp only [applyOp, remove_dependency]
    exact acyclic_of_sub (fun p hp => (List.mem_filter.mp hp).1) h
  | deleteIssue id =>
    simp only [applyOp, delete_issue]
    split
    · exact acyclic_of_sub (fun p hp => (List.mem_filter.mp hp).1) h
    · exact h
  | _ =>
    first
    | exact h
    | · simp only [applyOp, create_issue, create_subissue,
          create_issue_with_parent, createIssueInsert, update_issue,
          close_issue, reopen_issue, add_label, remove_label, add_comment,
          start_session, end_session, set_session_issue, start_timer,
          stop_timer, add_relation, remove_relation, update_parent,
          create_milestone, add_issue_to_milestone,
          remove_issue_from_milestone, close_milestone, delete_milestone,
          archive_issue, unarchive_issue, archive_older_than]
        repeat' split
        all_goals exact h

/-- C1: for every acyclic dependency edge set, add_dependency(a, b) when a
already transitively blocks b via existing edges (or when a = b, a
self-block) fails with an integrity error and leaves the store, in
particular the dependency edge set, completely unchanged. -/
theorem add_dependency_rejects_cycles (s : Store) (a b : Int)
    (hacyc : Acyclic s.dependencies)
    (hreach : a = b ∨ Reaches s.dependencies a b) :
    (∃ e, (add_dependency s a b).1 = Except.error e) ∧
      (add_dependency s a b).2 = s := by
  by_cases hab : a = b
  · rw [add_dependency, if_pos hab]
    exact ⟨⟨_, rfl⟩, rfl⟩
  · have hr : Reaches s.dependencies a b := hreach.resolve_left hab
    rw [add_dependency, if_neg hab, if_pos (would_create_cycle_true_of_reaches hr)]
    exact ⟨⟨_, rfl⟩, rfl⟩

theorem add_dependency_rejects_cycles_witness :
    (Acyclic stDep.dependencies ∧
      ((2 : Int) = 1 ∨ Reaches stDep.dependencies 2 1)) ∧
    ((∃ e, (add_dependency stDep 2 1).1 = Except.error e) ∧
      (add_dependency stDep 2 1).2 = stDep) := by
  have hdep : stDep.dependencies = [(2, 1)] := rfl
  have hacyc : Acyclic stDep.dependencies := by
    rw [hdep]
    intro x y hxy hr
    have hxy' : x = 2 ∧ y = 1 := by
      simpa [DepStep, Prod.ext_iff] using hxy
    obtain ⟨hx, hy⟩ := hxy'
    subst hx; subst hy
    rcases Relation.ReflTransGen.cases_head hr with h | ⟨c, hc, _⟩
    · exact absurd h (by decide)
    · have : (1 : Int) = 2 ∧ c = 1 := by
        simpa [DepStep, Prod.ext_iff] using hc
      exact absurd this.1 (by decide)
  have hreach : (2 : Int) = 1 ∨ Reaches stDep.dependencies 2 1 :=
    Or.inr (Relation.ReflTransGen.single
      (show DepStep stDep.dependencies 2 1 by rw [hdep]; simp [DepStep]))
  exact ⟨⟨hacyc, hreach⟩, add_dependency_rejects_cycles stDep 2 1 hacyc hreach⟩

/-- C2: every store reachable from the empty store by any sequence of store
operations has an acyclic dependency graph: no chain of blocker edges leads
from an issue back to itself. -/
theorem reachable_store_acyclic (s : Store) (h : ReachableStore s) :
    Acyclic s.dependencies := by
  induction h with
  | empty =>
    intro x y hxy
    simp [emptyStore, DepStep] at hxy
  | step op s _ ih => exact acyclic_applyOp op s ih

theorem reachable_store_acyclic_witness :
    ReachableStore (applyOp (Op.addDependency 1 2)
      (applyOp (Op.createIssue "B" none "medium" "t")
        (applyOp (Op.createIssue "A" none "medium" "t") emptyStore))) ∧
    Acyclic (applyOp (Op.addDependency 1 2)
      (applyOp (Op.createIssue "B" none "medium" "t")
        (applyOp (Op.createIssue "A" none "medium" "t") emptyStore))).dependencies := by
  have hr : ReachableStore (applyOp (Op.addDependency 1 2)
      (applyOp (Op.createIssue "B" none "medium" "t")
        (applyOp (Op.createIssue "A" none "medium" "t") emptyStore))) :=
    ReachableStore.step _ _ (ReachableStore.step _ _
      (ReachableStore.step _ _ ReachableStore.empty))
  exact ⟨hr, reachable_store_acyclic _ hr⟩

/-- C3: the transaction wrapper returns the body's error unchanged with the
store exactly as before the call when the body fails, and commits the body's
mutated store when it succeeds; this holds for every body, in particular for
the bulk-import body. -/
theorem transaction_atomicity (T : Type) (s : Store)
    (body : Store → Except String (T × Store)) :
    (∀ e, body s = Except.error e → transaction s body = (Except.error e, s)) ∧
    (∀ t s', body s = Except.ok (t, s') → transaction s body = (Except.ok t, s')) := by
  refine ⟨fun e he => ?_, fun t s' hok => ?_⟩
  · rw [transaction, he]
  · rw [transaction, hok]

theorem transaction_atomicity_witness :
    ((fun s0 => (create_issue s0 "Imported" none "medium" "t").2 |>
        (fun _ => (Except.error "Failed to parse JSON" : Except String (Nat × Store))))
      emptyStore = Except.error "Failed to parse JSON") ∧
    transaction emptyStore
      (fun s0 => (create_issue s0 "Imported" none "medium" "t").2 |>
        (fun _ => (Except.error "Failed to parse JSON" : Except String (Nat × Store)))) =
      (Except.error "Failed to parse JSON", emptyStore) :=
  ⟨rfl, (transaction_atomicity Nat emptyStore _).1 _ rfl⟩

theorem hasOpenBlocker_iff {s : Store} {i : IssueRow} :
    hasOpenBlocker s i = true ↔
      ∃ b, (b, i.id) ∈ s.dependencies ∧
        ∃ r ∈ s.issues, r.id = b ∧ r.status = "open" := by
  simp only [hasOpenBlocker, List.any_eq_true, Bool.and_eq_true,
    decide_eq_true_eq]
  constructor
  · rintro ⟨⟨b, bl⟩, hd, hbl, r, hr, hrid, hrst⟩
    refine ⟨b, ?_, r, hr, hrid, hrst⟩
    rw [← hbl]
    exact hd
  · rintro ⟨b, hd, r, hr, hrid, hrst⟩
    exact ⟨(b, i.id), hd, rfl, r, hr, hrid, hrst⟩

/-- C4: list_ready_issues returns exactly the open issues none of whose
immediate blockers (rows joined through the dependencies table) is open, and
list_blocked_issues exactly the open issues with at least one open blocker;
the two sets are disjoint and readiness looks only at immediate blockers. -/
theorem ready_blocked_exact (s : Store) (i : IssueRow) :
    (i ∈ list_ready_issues s ↔ i ∈ s.issues ∧ i.status = "open" ∧
      ∀ b, (b, i.id) ∈ s.dependencies →
        ∀ r ∈ s.issues, r.id = b → r.status ≠ "open") ∧
    (i ∈ list_blocked_issues s ↔ i ∈ s.issues ∧ i.status = "open" ∧
      ∃ b, (b, i.id) ∈ s.dependencies ∧
        ∃ r ∈ s.issues, r.id = b ∧ r.status = "open") ∧
    ¬(i ∈ list_ready_issues s ∧ i ∈ list_blocked_issues s) ∧
    (i ∈ s.issues → i.status = "open" →
      (i ∈ list_blocked_issues s ↔ i ∉ list_ready_issues s)) := by
  have hready : i ∈ list_ready_issues s ↔ i ∈ s.issues ∧ i.status = "open" ∧
      ¬(∃ b, (b, i.id) ∈ s.dependencies ∧
        ∃ r ∈ s.issues, r.id = b ∧ r.status = "open") := by
    simp only [list_ready_issues, List.mem_filter, Bool.and_eq_true,
      decide_eq_true_eq, Bool.not_eq_true', and_assoc]
    rw [← hasOpenBlocker_iff]
    simp [Bool.not_eq_true]
  have hblocked : i ∈ list_blocked_issues s ↔ i ∈ s.issues ∧ i.status = "open" ∧
      ∃ b, (b, i.id) ∈ s.dependencies ∧
        ∃ r ∈ s.issues, r.id = b ∧ r.status = "open" := by
    simp only [list_blocked_issues, List.mem_filter, Bool.and_eq_true,
      decide_eq_true_eq, and_assoc]
    rw [hasOpenBlocker_iff]
  refine ⟨?_, hblocked, ?_, ?_⟩
  · rw [hready]
    constructor
    · rintro ⟨h1, h2, h3⟩
      refine ⟨h1, h2, fun b hb r hr hrid hrst => h3 ⟨b, hb, r, hr, hrid, hrst⟩⟩
    · rintro ⟨h1, h2, h3⟩
      exact ⟨h1, h2, fun ⟨b, hb, r, hr, hrid, hrst⟩ => h3 b hb r hr hrid hrst⟩
  · rintro ⟨h1, h2⟩
    exact (hready.mp h1).2.2 (hblocked.mp h2).2.2
  · intro hmem hopen
    rw [hready, hblocked]
    constructor
    · rintro ⟨_, _, hex⟩ ⟨_, _, hnot⟩
      exact hnot hex
    · intro hnr
      refine ⟨hmem, hopen, not_not.mp ?_⟩
      intro hnex
      exact hnr ⟨hmem, hopen, hnex⟩

theorem eq_of_mem_of_id_eq {l : List IssueRow}
    (hnd : (l.map IssueRow.id).Nodup) {a b : IssueRow}
    (ha : a ∈ l) (hb : b ∈ l) (h : a.id = b.id) : a = b :=
  List.inj_on_of_nodup_map hnd ha hb h

theorem list_map_id_of_eq {α : Type} {f : α → α} {l : List α}
    (h : ∀ a ∈ l, f a = a) : l.map f = l := by
  induction l with
  | nil => rfl
  | cons x xs ih =>
    simp only [List.map_cons, h x (List.mem_cons_self x xs),
      ih (fun a ha => h a (List.mem_cons_of_mem _ ha))]

/-- C7: archive_issue reports an affected row exactly when an issue row with
the given id and status exactly closed exists; on an open issue it is a
no-op returning false and leaving the store unchanged. -/
theorem archive_issue_only_closed (s : Store) (id : Int) (now : String)
    (hnd : (s.issues.map IssueRow.id).Nodup) :
    ((archive_issue s id now).1 = true ↔
      ∃ r ∈ s.issues, r.id = id ∧ r.status = "closed") ∧
    (∀ r ∈ s.issues, r.id = id → r.status = "open" →
      (archive_issue s id now).1 = false ∧ (archive_issue s id now).2 = s) := by
  constructor
  · simp [archive_issue, List.any_eq_true]
  · intro r hr hrid hrst
    have hnone : ∀ r' ∈ s.issues, ¬(r'.id = id ∧ r'.status = "closed") := by
      rintro r' hr' ⟨hid', hst'⟩
      have : r' = r := eq_of_mem_of_id_eq hnd hr' hr (hid'.trans hrid.symm)
      rw [this, hrst] at hst'
      exact absurd hst' (by decide)
    have hmap : s.issues.map (fun r' =>
        if r'.id = id ∧ r'.status = "closed" then
          { r' with status := "archived", updated_at := now }
        else r') = s.issues :=
      list_map_id_of_eq (fun r' hr' => by rw [if_neg (hnone r' hr')])
    constructor
    · simp only [archive_issue]
      rw [List.any_eq_false]
      intro r' hr'
      simpa using hnone r' hr'
    · show { s with issues := _ } = s
      rw [hmap]

theorem archive_issue_only_closed_witness :
    ((stDep.issues.map IssueRow.id).Nodup ∧
      mkIssue 1 "A" "open" none ∈ stDep.issues ∧
      (mkIssue 1 "A" "open" none).id = 1 ∧
      (mkIssue 1 "A" "open" none).status = "open") ∧
    ((archive_issue stDep 1 "t").1 = false ∧ (archive_issue stDep 1 "t").2 = stDep) :=
  ⟨⟨by decide, by decide, rfl, rfl⟩,
    (archive_issue_only_closed stDep 1 "t" (by decide)).2
      (mkIssue 1 "A" "open" none) (by decide) rfl rfl⟩

/-- C8: for an existing issue, close_issue then reopen_issue reports an
affected row both times and leaves every row with that id with status open
and a cleared closed_at. -/
theorem close_reopen_roundtrip (s : Store) (id : Int) (t1 t2 : String)
    (hex : ∃ r ∈ s.issues, r.id = id) :
    (close_issue s id t1).1 = true ∧
    (reopen_issue (close_issue s id t1).2 id t2).1 = true ∧
    ∀ r ∈ (reopen_issue (close_issue s id t1).2 id t2).2.issues,
      r.id = id → r.status = "open" ∧ r.closed_at = none := by
  obtain ⟨r0, hr0, hid0⟩ := hex
  refine ⟨?_, ?_, ?_⟩
  · simp only [close_issue, List.any_eq_true]
    exact ⟨r0, hr0, by simpa using hid0⟩
  · simp only [reopen_issue, close_issue, List.any_eq_true]
    refine ⟨if r0.id = id then
        { r0 with status := "closed", closed_at := some t1, updated_at := t1 }
      else r0, List.mem_map_of_mem _ hr0, ?_⟩
    rw [if_pos hid0]
    simpa using hid0
  · intro r hr hrid
    simp only [reopen_issue, close_issue, List.mem_map] at hr
    obtain ⟨r1, _, hr1⟩ := hr
    by_cases h1 : r1.id = id
    · rw [if_pos h1] at hr1
      rw [← hr1]
      exact ⟨rfl, rfl⟩
    · rw [if_neg h1] at hr1
      rw [← hr1] at hrid
      exact absurd hrid h1

theorem close_reopen_roundtrip_witness :
    (∃ r ∈ stDep.issues, r.id = 1) ∧
    ((close_issue stDep 1 "t1").1 = true ∧
      (reopen_issue (close_issue stDep 1 "t1").2 1 "t2").1 = true ∧
      ∀ r ∈ (reopen_issue (close_issue stDep 1 "t1").2 1 "t2").2.issues,
        r.id = 1 → r.status = "open" ∧ r.closed_at = none) :=
  ⟨by decide, close_reopen_roundtrip stDep 1 "t1" "t2" (by decide)⟩

theorem mem_childIds {issues : List IssueRow} {p c : Int} :
    c ∈ childIds issues p ↔ ChildStep issues p c := by
  simp only [childIds, List.mem_map, List.mem_filter, decide_eq_true_eq,
    ChildStep]
  constructor
  · rintro ⟨r, ⟨hr, hp⟩, hid⟩
    exact ⟨r, hr, hid, hp⟩
  · rintro ⟨r, hr, hid, hp⟩
    exact ⟨r, ⟨hr, hp⟩, hid⟩

theorem id_mem_issueIdNodes {issues : List IssueRow} {r : IssueRow}
    (h : r ∈ issues) : r.id ∈ issueIdNodes issues := by
  induction issues with
  | nil => simp at h
  | cons q rest ih =>
    rcases List.mem_cons.mp h with h | h
    · subst h
      simp [issueIdNodes]
    · simp only [issueIdNodes, List.foldr_cons] at *
      exact Finset.mem_insert_of_mem (ih h)

theorem subissue_mem_of_closed {issues : List IssueRow} {V : Finset Int}
    (hcl : ∀ v ∈ V, ∀ w, ChildStep issues v w → w ∈ V) :
    ∀ x y, SubissueOf issues x y → x ∈ V → y ∈ V := by
  intro x y h
  induction h with
  | refl => exact id
  | tail _ hstep ih => intro hx; exact hcl _ (ih hx) _ hstep

theorem cascadeSet_complete (issues : List IssueRow) (U : Finset Int)
    (hU : ∀ r : IssueRow, r ∈ issues → r.id ∈ U) :
    ∀ (fuel : Nat) (stack : List Int) (visited : Finset Int),
      (∀ x ∈ stack, x ∈ U) → visited ⊆ U → U.card ≤ fuel + visited.card →
      (∀ v ∈ visited, ∀ w, ChildStep issues v w → w ∈ visited ∨ w ∈ stack) →
      ∀ x, x ∈ stack ∨ x ∈ visited →
        ∀ y, SubissueOf issues x y → y ∈ cascadeSet issues fuel stack visited := by
  intro fuel stack visited
  induction fuel, stack, visited using cascadeSet.induct issues with
  | case1 fuel visited =>
    intro _ _ _ hinv x hx y hy
    rw [cascadeSet.eq_def]
    simp only
    rcases hx with h | h
    · simp at h
    · refine subissue_mem_of_closed ?_ x y hy h
      intro v hv w hw
      rcases hinv v hv w hw with h' | h'
      · exact h'
      · simp at h'
  | case2 fuel visited current rest hmem ih =>
    intro hstack hVU hcard hinv x hx y hy
    rw [cascadeSet.eq_def]
    simp only [if_pos hmem]
    have hinv' : ∀ v ∈ visited, ∀ w, ChildStep issues v w →
        w ∈ visited ∨ w ∈ rest := by
      intro v hv w hw
      rcases hinv v hv w hw with h' | h'
      · exact Or.inl h'
      · rcases List.mem_cons.mp h' with h'' | h''
        · exact Or.inl (h'' ▸ hmem)
        · exact Or.inr h''
    have hstack' : ∀ z ∈ rest, z ∈ U :=
      fun z hz => hstack z (List.mem_cons_of_mem _ hz)
    rcases hx with hx | hx
    · rcases List.mem_cons.mp hx with hx' | hx'
      · exact ih hstack' hVU hcard hinv' x (Or.inr (hx' ▸ hmem)) y hy
      · exact ih hstack' hVU hcard hinv' x (Or.inl hx') y hy
    · exact ih hstack' hVU hcard hinv' x (Or.inr hx) y hy
  | case3 visited current rest hnmem =>
    intro hstack hVU hcard _ _ _ _ _
    exfalso
    have : visited = U :=
      Finset.eq_of_subset_of_card_le hVU (by simpa using hcard)
    exact hnmem (this ▸ hstack current (List.mem_cons_self _ _))
  | case4 visited current rest hnmem fuel' ih =>
    intro hstack hVU hcard hinv x hx y hy
    rw [cascadeSet.eq_def]
    simp only [if_neg hnmem]
    have hcurU : current ∈ U := hstack current (List.mem_cons_self _ _)
    have hstack' : ∀ z ∈ childIds issues current ++ rest, z ∈ U := by
      intro z hz
      rcases List.mem_append.mp hz with hz | hz
      · obtain ⟨r, hr, hid, _⟩ := mem_childIds.mp hz
        exact hid ▸ hU r hr
      · exact hstack z (List.mem_cons_of_mem _ hz)
    have hVU' : insert current visited ⊆ U := Finset.insert_subset hcurU hVU
    have hcard' : U.card ≤ fuel' + (insert current visited).card := by
      rw [Finset.card_insert_of_not_mem hnmem]
      omega
    have hinv' : ∀ v ∈ insert current visited, ∀ w, ChildStep issues v w →
        w ∈ insert current visited ∨ w ∈ childIds issues current ++ rest := by
      intro v hv w hw
      rcases Finset.mem_insert.mp hv with hv' | hv'
      · subst hv'
        exact Or.inr (List.mem_append.mpr (Or.inl (mem_childIds.mpr hw)))
      · rcases hinv v hv' w hw with h' | h'
        · exact Or.inl (Finset.mem_insert_of_mem h')
        · rcases List.mem_cons.mp h' with h'' | h''
          · exact Or.inl (h'' ▸ Finset.mem_insert_self _ _)
          · exact Or.inr (List.mem_append.mpr (Or.inr h''))
    rcases hx with hx | hx
    · rcases List.mem_cons.mp hx with hx' | hx'
      · exact ih hstack' hVU' hcard' hinv' x
          (Or.inr (hx' ▸ Finset.mem_insert_self _ _)) y hy
      · exact ih hstack' hVU' hcard' hinv' x
          (Or.inl (List.mem_append.mpr (Or.inr hx'))) y hy
    · exact ih hstack' hVU' hcard' hinv' x
        (Or.inr (Finset.mem_insert_of_mem hx)) y hy

theorem deletedSet_complete {issues : List IssueRow} {id y : Int}
    (h : SubissueOf issues id y) : y ∈ deletedSet issues id := by
  refine cascadeSet_complete issues (insert id (issueIdNodes issues))
    (fun r hr => Finset.mem_insert_of_mem (id_mem_issueIdNodes hr))
    ((issueIdNodes issues).card + 1) [id] ∅ ?_ ?_ ?_ ?_ id (Or.inl ?_) y h
  · intro x hx
    rcases List.mem_cons.mp hx with hx | hx
    · exact hx ▸ Finset.mem_insert_self _ _
    · simp at hx
  · exact Finset.empty_subset _
  · simpa using Finset.card_insert_le _ _
  · intro v hv
    simp at hv
  · exact List.mem_cons_self _ _

theorem id_mem_deletedSet {issues : List IssueRow} {id : Int} :
    id ∈ deletedSet issues id :=
  deletedSet_complete Relation.ReflTransGen.refl

/-- C5: deleting an existing issue removes its row and every recursive
subissue row, all its labels, comments, dependency edges in either
direction, relations on either side and milestone memberships, while every
session row survives with active_issue_id cleared to NULL when it pointed at
the deleted issue. -/
theorem delete_issue_cascades (s : Store) (id : Int)
    (hex : ∃ r ∈ s.issues, r.id = id) :
    (delete_issue s id).1 = true ∧
    (∀ r ∈ (delete_issue s id).2.issues, r.id ≠ id) ∧
    (∀ x, SubissueOf s.issues id x →
      ∀ r ∈ (delete_issue s id).2.issues, r.id ≠ x) ∧
    (∀ r ∈ s.issues, r.parent_id = some id →
      ∀ r' ∈ (delete_issue s id).2.issues, r'.id ≠ r.id) ∧
    (∀ l ∈ (delete_issue s id).2.labels, l.issue_id ≠ id) ∧
    (∀ c ∈ (delete_issue s id).2.comments, c.issue_id ≠ id) ∧
    (∀ d ∈ (delete_issue s id).2.dependencies, d.1 ≠ id ∧ d.2 ≠ id) ∧
    (∀ rl ∈ (delete_issue s id).2.relations,
      rl.issue_id_1 ≠ id ∧ rl.issue_id_2 ≠ id) ∧
    (∀ m ∈ (delete_issue s id).2.milestone_issues, m.2 ≠ id) ∧
    ((delete_issue s id).2.sessions.map SessionRow.id =
      s.sessions.map SessionRow.id) ∧
    (∀ t ∈ s.sessions, t.active_issue_id = some id →
      ∃ t' ∈ (delete_issue s id).2.sessions, t'.id = t.id ∧
        t'.active_issue_id = none) := by
  have hif : issueExists s id = true := by
    obtain ⟨r, hr, hid⟩ := hex
    simp only [issueExists, List.any_eq_true, decide_eq_true_eq]
    exact ⟨r, hr, hid⟩
  have hid : id ∈ deletedSet s.issues id := id_mem_deletedSet
  have hD : delete_issue s id = (true,
    { s with
      issues := s.issues.filter (fun r => r.id ∉ deletedSet s.issues id),
      labels := s.labels.filter (fun l => l.issue_id ∉ deletedSet s.issues id),
      dependencies := s.dependencies.filter
        (fun d => d.1 ∉ deletedSet s.issues id ∧ d.2 ∉ deletedSet s.issues id),
      comments := s.comments.filter
        (fun c => c.issue_id ∉ deletedSet s.issues id),
      time_entries := s.time_entries.filter
        (fun t => t.issue_id ∉ deletedSet s.issues id),
      relations := s.relations.filter (fun r =>
        r.issue_id_1 ∉ deletedSet s.issues id ∧
          r.issue_id_2 ∉ deletedSet s.issues id),
      milestone_issues := s.milestone_issues.filter
        (fun m => m.2 ∉ deletedSet s.issues id),
      sessions := s.sessions.map (fun t =>
        match t.active_issue_id with
        | some a => if a ∈ deletedSet s.issues id then
            { t with active_issue_id := none } else t
        | none => t) }) := by
    rw [delete_issue, if_pos hif]
  refine ⟨by rw [hD], ?_, ?_, ?_, ?_, ?_, ?_, ?_, ?_, ?_, ?_⟩
  · intro r hr
    rw [hD] at hr
    simp only [List.mem_filter, decide_eq_true_eq] at hr
    exact fun h => hr.2 (h ▸ hid)
  · intro x hx r hr
    rw [hD] at hr
    simp only [List.mem_filter, decide_eq_true_eq] at hr
    exact fun h => hr.2 (h ▸ deletedSet_complete hx)
  · intro r hr hp r' hr'
    rw [hD] at hr'
    simp only [List.mem_filter, decide_eq_true_eq] at hr'
    have hsub : SubissueOf s.issues id r.id :=
      Relation.ReflTransGen.single ⟨r, hr, rfl, hp⟩
    exact fun h => hr'.2 (h ▸ deletedSet_complete hsub)
  · intro l hl
    rw [hD] at hl
    simp only [List.mem_filter, decide_eq_true_eq] at hl
    exact fun h => hl.2 (h ▸ hid)
  · intro c hc
    rw [hD] at hc
    simp only [List.mem_filter, decide_eq_true_eq] at hc
    exact fun h => hc.2 (h ▸ hid)
  · intro d hd
    rw [hD] at hd
    simp only [List.mem_filter, decide_eq_true_eq] at hd
    exact ⟨fun h => hd.2.1 (h ▸ hid), fun h => hd.2.2 (h ▸ hid)⟩
  · intro rl hrl
    rw [hD] at hrl
    simp only [List.mem_filter, decide_eq_true_eq] at hrl
    exact ⟨fun h => hrl.2.1 (h ▸ hid), fun h => hrl.2.2 (h ▸ hid)⟩
  · intro m hm
    rw [hD] at hm
    simp only [List.mem_filter, decide_eq_true_eq] at hm
    exact fun h => hm.2 (h ▸ hid)
  · rw [hD]
    simp only [List.map_map]
    refine List.map_congr_left (fun t _ => ?_)
    simp only [Function.comp_apply]
    cases hta : t.active_issue_id with
    | none => rfl
    | some a =>
      by_cases h : a ∈ deletedSet s.issues id <;> simp [h]
  · intro t ht hta
    rw [hD]
    refine ⟨(fun t' =>
      match t'.active_issue_id with
      | some a => if a ∈ deletedSet s.issues id then
          { t' with active_issue_id := none } else t'
      | none => t') t, List.mem_map_of_mem _ ht, ?_⟩
    simp [hta, hid]

theorem delete_issue_cascades_witness :
    (∃ r ∈ stCascade.issues, r.id = 1) ∧
    ((delete_issue stCascade 1).1 = true ∧
    (∀ r ∈ (delete_issue stCascade 1).2.issues, r.id ≠ 1) ∧
    (∀ x, SubissueOf stCascade.issues 1 x →
      ∀ r ∈ (delete_issue stCascade 1).2.issues, r.id ≠ x) ∧
    (∀ r ∈ stCascade.issues, r.parent_id = some 1 →
      ∀ r' ∈ (delete_issue stCascade 1).2.issues, r'.id ≠ r.id) ∧
    (∀ l ∈ (delete_issue stCascade 1).2.labels, l.issue_id ≠ 1) ∧
    (∀ c ∈ (delete_issue stCascade 1).2.comments, c.issue_id ≠ 1) ∧
    (∀ d ∈ (delete_issue stCascade 1).2.dependencies, d.1 ≠ 1 ∧ d.2 ≠ 1) ∧
    (∀ rl ∈ (delete_issue stCascade 1).2.relations,
      rl.issue_id_1 ≠ 1 ∧ rl.issue_id_2 ≠ 1) ∧
    (∀ m ∈ (delete_issue stCascade 1).2.milestone_issues, m.2 ≠ 1) ∧
    ((delete_issue stCascade 1).2.sessions.map SessionRow.id =
      stCascade.sessions.map SessionRow.id) ∧
    (∀ t ∈ stCascade.sessions, t.active_issue_id = some 1 →
      ∃ t' ∈ (delete_issue stCascade 1).2.sessions, t'.id = t.id ∧
        t'.active_issue_id = none)) :=
  ⟨by decide, delete_issue_cascades stCascade 1 (by decide)⟩

theorem statusOK_refl (a : String) : StatusTransitionOK a a := Or.inl rfl

theorem statusOK_to_closed {a : String}
    (h : a = "open" ∨ a = "closed" ∨ a = "archived") :
    StatusTransitionOK a "closed" := by
  rcases h with h | h | h
  · exact Or.inr (Or.inl ⟨h, rfl⟩)
  · exact Or.inl h
  · exact Or.inr (Or.inr (Or.inr (Or.inr (Or.inl ⟨h, rfl⟩))))

theorem statusOK_to_open {a : String}
    (h : a = "open" ∨ a = "closed" ∨ a = "archived") :
    StatusTransitionOK a "open" := by
  rcases h with h | h | h
  · exact Or.inl h
  · exact Or.inr (Or.inr (Or.inl ⟨h, rfl⟩))
  · exact Or.inr (Or.inr (Or.inr (Or.inr (Or.inr ⟨h, rfl⟩))))

theorem map_row_eq {l : List IssueRow} (f : IssueRow → IssueRow)
    (hfid : ∀ r, (f r).id = r.id)
    (hnd : (l.map IssueRow.id).Nodup) {r r' : IssueRow}
    (hr : r ∈ l) (hr' : r' ∈ l.map f) (hid : r'.id = r.id) : r' = f r := by
  obtain ⟨r0, hr0, hfr0⟩ := List.mem_map.mp hr'
  have h0 : r0.id = r.id := by
    rw [← hfr0] at hid
    rw [← hid, hfid]
  rw [← hfr0, eq_of_mem_of_id_eq hnd hr0 hr h0]

theorem append_row_case {l : List IssueRow} {new : IssueRow}
    (hnd : (l.map IssueRow.id).Nodup) {r r' : IssueRow}
    (hr : r ∈ l) (hr' : r' ∈ l ++ [new]) (hid : r'.id = r.id) :
    r' = r ∨ r' = new := by
  rcases List.mem_append.mp hr' with h | h
  · exact Or.inl (eq_of_mem_of_id_eq hnd h hr hid)
  · exact Or.inr (by simpa using h)

/-- C6 counterexample: create, close, archive leaves issue 1 archived, and a
single reopen_issue moves it directly from archived to open, an archived to
open transition the claim rules out. -/
theorem reopen_archived_goes_open :
    (∃ r ∈ (applyOp (Op.archiveIssue 1 "t2") (applyOp (Op.closeIssue 1 "t1")
        (applyOp (Op.createIssue "A" none "medium" "t0") emptyStore))).issues,
      r.id = 1 ∧ r.status = "archived") ∧
    (∃ r ∈ (applyOp (Op.reopenIssue 1 "t3") (applyOp (Op.archiveIssue 1 "t2")
        (applyOp (Op.closeIssue 1 "t1")
          (applyOp (Op.createIssue "A" none "medium" "t0") emptyStore)))).issues,
      r.id = 1 ∧ r.status = "open") := by
  decide

/-- C6 amended: over stores with unique issue ids, one store operation moves
an issue whose status is open, closed or archived only along open to closed,
closed to open, closed to archived, archived to closed, or archived to open
(the unguarded reopen_issue); in particular never open to archived. -/
theorem status_transitions_allowed (op : Op) (s : Store)
    (hnd : (s.issues.map IssueRow.id).Nodup)
    (r r' : IssueRow) (hr : r ∈ s.issues) (hr' : r' ∈ (applyOp op s).issues)
    (hid : r'.id = r.id)
    (hst : r.status = "open" ∨ r.status = "closed" ∨ r.status = "archived") :
    StatusTransitionOK r.status r'.status := by
  cases op with
  | createIssue t d p now =>
    simp only [applyOp, create_issue, create_issue_with_parent,
      createIssueInsert] at hr'
    rcases append_row_case hnd hr hr' hid with h | h
    · rw [h]; exact statusOK_refl _
    · rw [h]; exact statusOK_to_open hst
  | createSubissue pid t d p now =>
    simp only [applyOp, create_subissue, create_issue_with_parent,
      createIssueInsert] at hr'
    split at hr'
    · rcases append_row_case hnd hr hr' hid with h | h
      · rw [h]; exact statusOK_refl _
      · rw [h]; exact statusOK_to_open hst
    · rw [eq_of_mem_of_id_eq hnd hr' hr hid]; exact statusOK_refl _
  | updateIssue id t d p now =>
    simp only [applyOp, update_issue] at hr'
    have hrr := map_row_eq _ (fun r0 => by split <;> rfl) hnd hr hr' hid
    rw [hrr]
    split <;> exact statusOK_refl _
  | closeIssue id now =>
    simp only [applyOp, close_issue] at hr'
    have hrr := map_row_eq _ (fun r0 => by split <;> rfl) hnd hr hr' hid
    rw [hrr]
    split
    · exact statusOK_to_closed hst
    · exact statusOK_refl _
  | reopenIssue id now =>
    simp only [applyOp, reopen_issue] at hr'
    have hrr := map_row_eq _ (fun r0 => by split <;> rfl) hnd hr hr' hid
    rw [hrr]
    split
    · exact statusOK_to_open hst
    · exact statusOK_refl _
  | deleteIssue id =>
    simp only [applyOp, delete_issue] at hr'
    split at hr'
    · have := (List.mem_filter.mp hr').1
      rw [eq_of_mem_of_id_eq hnd this hr hid]; exact statusOK_refl _
    · rw [eq_of_mem_of_id_eq hnd hr' hr hid]; exact statusOK_refl _
  | addLabel iid lbl =>
    simp only [applyOp, add_label] at hr'
    repeat' split at hr'
    all_goals rw [eq_of_mem_of_id_eq hnd hr' hr hid]
    all_goals exact statusOK_refl _
  | removeLabel iid lbl =>
    simp only [applyOp, remove_label] at hr'
    rw [eq_of_mem_of_id_eq hnd hr' hr hid]; exact statusOK_refl _
  | addComment iid c now =>
    simp only [applyOp, add_comment] at hr'
    repeat' split at hr'
    all_goals rw [eq_of_mem_of_id_eq hnd hr' hr hid]
    all_goals exact statusOK_refl _
  | addDependency blocked blocker =>
    simp only [applyOp, add_dependency] at hr'
    repeat' split at hr'
    all_goals rw [eq_of_mem_of_id_eq hnd hr' hr hid]
    all_goals exact statusOK_refl _
  | removeDependency blocked blocker =>
    simp only [applyOp, remove_dependency] at hr'
    rw [eq_of_mem_of_id_eq hnd hr' hr hid]; exact statusOK_refl _
  | startSession now =>
    simp only [applyOp, start_session] at hr'
    rw [eq_of_mem_of_id_eq hnd hr' hr hid]; exact statusOK_refl _
  | endSession id notes now =>
    simp only [applyOp, end_session] at hr'
    rw [eq_of_mem_of_id_eq hnd hr' hr hid]; exact statusOK_refl _
  | setSessionIssue sid iid =>
    simp only [applyOp, set_session_issue] at hr'
    repeat' split at hr'
    all_goals rw [eq_of_mem_of_id_eq hnd hr' hr hid]
    all_goals exact statusOK_refl _
  | startTimer iid now =>
    simp only [applyOp, start_timer] at hr'
    repeat' split at hr'
    all_goals rw [eq_of_mem_of_id_eq hnd hr' hr hid]
    all_goals exact statusOK_refl _
  | stopTimer iid now dur =>
    simp only [applyOp, stop_timer] at hr'
    repeat' split at hr'
    all_goals rw [eq_of_mem_of_id_eq hnd hr' hr hid]
    all_goals exact statusOK_refl _
  | addRelation a b now =>
    simp only [applyOp, add_relation] at hr'
    repeat' split at hr'
    all_goals rw [eq_of_mem_of_id_eq hnd hr' hr hid]
    all_goals exact statusOK_refl _
  | removeRelation a b =>
    simp only [applyOp, remove_relation] at hr'
    rw [eq_of_mem_of_id_eq hnd hr' hr hid]; exact statusOK_refl _
  | updateParent id pid now =>
    simp only [applyOp, update_parent] at hr'
    split at hr'
    · split at hr'
      · split at hr'
        · have hrr := map_row_eq _ (fun r0 => by split <;> rfl) hnd hr hr' hid
          rw [hrr]
          split <;> exact statusOK_refl _
        · rw [eq_of_mem_of_id_eq hnd hr' hr hid]; exact statusOK_refl _
      · have hrr := map_row_eq _ (fun r0 => by split <;> rfl) hnd hr hr' hid
        rw [hrr]
        split <;> exact statusOK_refl _
    · rw [eq_of_mem_of_id_eq hnd hr' hr hid]; exact statusOK_refl _
  | createMilestone n d now =>
    simp only [applyOp, create_milestone] at hr'
    rw [eq_of_mem_of_id_eq hnd hr' hr hid]; exact statusOK_refl _
  | addIssueToMilestone mid iid =>
    simp only [applyOp, add_issue_to_milestone] at hr'
    repeat' split at hr'
    all_goals rw [eq_of_mem_of_id_eq hnd hr' hr hid]
    all_goals exact statusOK_refl _
  | removeIssueFromMilestone mid iid =>
    simp only [applyOp, remove_issue_from_milestone] at hr'
    rw [eq_of_mem_of_id_eq hnd hr' hr hid]; exact statusOK_refl _
  | closeMilestone id now =>
    simp only [applyOp, close_milestone] at hr'
    rw [eq_of_mem_of_id_eq hnd hr' hr hid]; exact statusOK_refl _
  | deleteMilestone id =>
    simp only [applyOp, delete_milestone] at hr'
    rw [eq_of_mem_of_id_eq hnd hr' hr hid]; exact statusOK_refl _
  | archiveIssue id now =>
    simp only [applyOp, archive_issue] at hr'
    have hrr := map_row_eq _ (fun r0 => by split <;> rfl) hnd hr hr' hid
    rw [hrr]
    split
    · rename_i hcond
      exact Or.inr (Or.inr (Or.inr (Or.inl ⟨hcond.2, rfl⟩)))
    · exact statusOK_refl _
  | unarchiveIssue id now =>
    simp only [applyOp, unarchive_issue] at hr'
    have hrr := map_row_eq _ (fun r0 => by split <;> rfl) hnd hr hr' hid
    rw [hrr]
    split
    · rename_i hcond
      exact Or.inr (Or.inr (Or.inr (Or.inr (Or.inl ⟨hcond.2, rfl⟩))))
    · exact statusOK_refl _
  | archiveOlderThan cutoff now =>
    simp only [applyOp, archive_older_than] at hr'
    have hrr := map_row_eq _ (fun r0 => by split <;> rfl) hnd hr hr' hid
    rw [hrr]
    split
    · rename_i hcond
      have h2 : r.status = "closed" := by
        simpa using (Bool.and_eq_true _ _ |>.mp hcond).1
      exact Or.inr (Or.inr (Or.inr (Or.inl ⟨h2, rfl⟩)))
    · exact statusOK_refl _

theorem status_transitions_allowed_witness :
    ((stDep.issues.map IssueRow.id).Nodup ∧
      mkIssue 1 "A" "open" none ∈ stDep.issues ∧
      mkIssue 1 "A" "open" none ∈ (applyOp (Op.removeLabel 1 "x") stDep).issues ∧
      (mkIssue 1 "A" "open" none).id = (mkIssue 1 "A" "open" none).id ∧
      ((mkIssue 1 "A" "open" none).status = "open" ∨
        (mkIssue 1 "A" "open" none).status = "closed" ∨
        (mkIssue 1 "A" "open" none).status = "archived")) ∧
    StatusTransitionOK (mkIssue 1 "A" "open" none).status
      (mkIssue 1 "A" "open" none).status :=
  ⟨⟨by decide, by decide, by decide, rfl, Or.inl rfl⟩,
    status_transitions_allowed (Op.removeLabel 1 "x") stDep (by decide) _ _
      (by decide) (by decide) rfl (Or.inl rfl)⟩

theorem likeMatch_nil (t : List Char) : likeMatch [] t = t.isEmpty := rfl

theorem likeMatch_percent (ps : List Char) (t : List Char) :
    likeMatch ('%' :: ps) t = matchSuffixes (likeMatch ps) t := rfl

theorem likeMatch_escaped_nil (p2 : Char) (ps : List Char) :
    likeMatch ('\\' :: p2 :: ps) [] = false := rfl

theorem likeMatch_escaped_cons (p2 : Char) (ps : List Char) (c : Char)
    (ts : List Char) :
    likeMatch ('\\' :: p2 :: ps) (c :: ts) =
      if lowerChar c = lowerChar p2 then likeMatch ps ts else false := rfl

theorem likeMatch_lit_nil (pc : Char) (h1 : pc ≠ '%') (h2 : pc ≠ '_')
    (h3 : pc ≠ '\\') (ps : List Char) : likeMatch (pc :: ps) [] = false := by
  rw [likeMatch.eq_def]
  simp [h1, h2, h3]

theorem likeMatch_lit_cons (pc : Char) (h1 : pc ≠ '%') (h2 : pc ≠ '_')
    (h3 : pc ≠ '\\') (ps : List Char) (c : Char) (ts : List Char) :
    likeMatch (pc :: ps) (c :: ts) =
      if lowerChar c = lowerChar pc then likeMatch ps ts else false := by
  rw [likeMatch.eq_def]
  simp [h1, h2, h3]

theorem matchSuffixes_iff {k : List Char → Bool} {t : List Char} :
    matchSuffixes k t = true ↔ ∃ t1 t2, t = t1 ++ t2 ∧ k t2 = true := by
  induction t with
  | nil =>
    constructor
    · intro h
      exact ⟨[], [], rfl, h⟩
    · rintro ⟨t1, t2, heq, hk⟩
      obtain ⟨h1, h2⟩ := List.append_eq_nil.mp heq.symm
      subst h2
      exact hk
  | cons c ts ih =>
    simp only [matchSuffixes, Bool.or_eq_true, ih]
    constructor
    · rintro (h | ⟨t1, t2, heq, hk⟩)
      · exact ⟨[], c :: ts, rfl, h⟩
      · exact ⟨c :: t1, t2, by rw [heq, List.cons_append], hk⟩
    · rintro ⟨t1, t2, heq, hk⟩
      cases t1 with
      | nil =>
        left
        rw [List.nil_append] at heq
        rw [heq]
        exact hk
      | cons a t1' =>
        right
        rw [List.cons_append] at heq
        injection heq with e1 e2
        exact ⟨t1', t2, e2, hk⟩

theorem replaceChar_append (c : Char) (r l1 l2 : List Char) :
    replaceChar c r (l1 ++ l2) = replaceChar c r l1 ++ replaceChar c r l2 := by
  induction l1 with
  | nil => rfl
  | cons x xs ih => simp [replaceChar, ih]

theorem escapeQuery_cons (c : Char) (q : List Char) :
    escapeQuery (c :: q) =
      (if c = '%' then ['\\', '%'] else if c = '_' then ['\\', '_'] else [c]) ++
        escapeQuery q := by
  by_cases h1 : c = '%'
  · subst h1
    simp [escapeQuery, replaceChar, replaceChar_append]
  · by_cases h2 : c = '_'
    · subst h2
      simp [escapeQuery, replaceChar, replaceChar_append]
    · simp [escapeQuery, replaceChar, replaceChar_append, h1, h2]

theorem likeMatch_escaped_iff (p2 : Char) (ps t : List Char) :
    likeMatch ('\\' :: p2 :: ps) t = true ↔
      ∃ x ts, t = x :: ts ∧ lowerChar x = lowerChar p2 ∧
        likeMatch ps ts = true := by
  cases t with
  | nil =>
    rw [likeMatch_escaped_nil]
    simp
  | cons c ts =>
    rw [likeMatch_escaped_cons]
    split
    · rename_i h
      constructor
      · intro hk
        exact ⟨c, ts, rfl, h, hk⟩
      · rintro ⟨x, ts', heq, hx, hk⟩
        injection heq with e1 e2
        subst e1
        subst e2
        exact hk
    · rename_i h
      constructor
      · intro h'
        exact absurd h' (by simp)
      · rintro ⟨x, ts', heq, hx, hk⟩
        injection heq with e1 e2
        subst e1
        exact absurd hx h

theorem likeMatch_lit_iff (pc : Char) (h1 : pc ≠ '%') (h2 : pc ≠ '_')
    (h3 : pc ≠ '\\') (ps t : List Char) :
    likeMatch (pc :: ps) t = true ↔
      ∃ x ts, t = x :: ts ∧ lowerChar x = lowerChar pc ∧
        likeMatch ps ts = true := by
  cases t with
  | nil =>
    rw [likeMatch_lit_nil pc h1 h2 h3]
    simp
  | cons c ts =>
    rw [likeMatch_lit_cons pc h1 h2 h3]
    split
    · rename_i h
      constructor
      · intro hk
        exact ⟨c, ts, rfl, h, hk⟩
      · rintro ⟨x, ts', heq, hx, hk⟩
        injection heq with e1 e2
        subst e1
        subst e2
        exact hk
    · rename_i h
      constructor
      · intro h'
        exact absurd h' (by simp)
      · rintro ⟨x, ts', heq, hx, hk⟩
        injection heq with e1 e2
        subst e1
        exact absurd hx h

theorem likeMatch_escape_append_percent {q : List Char} (hq : '\\' ∉ q)
    (t : List Char) :
    likeMatch (escapeQuery q ++ ['%']) t = true ↔
      ∃ pre suf, t = pre ++ suf ∧ pre.map lowerChar = q.map lowerChar := by
  induction q generalizing t with
  | nil =>
    constructor
    · intro _
      exact ⟨[], t, rfl, rfl⟩
    · intro _
      exact matchSuffixes_iff.mpr ⟨t, [], (List.append_nil t).symm, rfl⟩
  | cons c q ihq =>
    have hq' : '\\' ∉ q := fun h => hq (List.mem_cons_of_mem _ h)
    have hc : c ≠ '\\' := fun h => hq (h ▸ List.mem_cons_self _ _)
    have key : likeMatch (escapeQuery (c :: q) ++ ['%']) t = true ↔
        ∃ x ts, t = x :: ts ∧ lowerChar x = lowerChar c ∧
          likeMatch (escapeQuery q ++ ['%']) ts = true := by
      rw [escapeQuery_cons]
      by_cases h1 : c = '%'
      · subst h1
        rw [if_pos rfl, List.append_assoc]
        exact likeMatch_escaped_iff '%' _ t
      · by_cases h2 : c = '_'
        · subst h2
          rw [if_neg h1, if_pos rfl, List.append_assoc]
          exact likeMatch_escaped_iff '_' _ t
        · rw [if_neg h1, if_neg h2, List.append_assoc]
          exact likeMatch_lit_iff c h1 h2 hc _ t
    rw [key]
    constructor
    · rintro ⟨x, ts, rfl, hx, hm⟩
      obtain ⟨pre, suf, rfl, hmap⟩ := (ihq hq' ts).mp hm
      exact ⟨x :: pre, suf, rfl, by simp [hx, hmap]⟩
    · rintro ⟨pre, suf, heq, hmap⟩
      cases pre with
      | nil => simp at hmap
      | cons x pre' =>
        simp only [List.map_cons] at hmap
        injection hmap with e1 e2
        rw [List.cons_append] at heq
        exact ⟨x, pre' ++ suf, heq, e1, (ihq hq' _).mpr ⟨pre', suf, rfl, e2⟩⟩

theorem likeMatch_likePattern_iff (q : String) (hq : '\\' ∉ q.toList)
    (t : String) :
    likeMatch (likePattern q) t.toList = true ↔ ContainsCI q t := by
  rw [likePattern, likeMatch_percent, matchSuffixes_iff]
  unfold ContainsCI
  constructor
  · rintro ⟨t1, t2, heq, hk⟩
    obtain ⟨pre, suf, h2, hmap⟩ := (likeMatch_escape_append_percent hq t2).mp hk
    refine ⟨t1.map lowerChar, suf.map lowerChar, ?_⟩
    rw [heq, h2]
    simp [hmap]
  · rintro ⟨a, b, hab⟩
    obtain ⟨t12, t3, he1, hm1, hm3⟩ := List.append_eq_map_iff.mp hab.symm
    obtain ⟨t1, t2, he2, hma, hmq⟩ := List.append_eq_map_iff.mp hm1.symm
    refine ⟨t1, t2 ++ t3, ?_, ?_⟩
    · rw [he1, he2, List.append_assoc]
    · exact (likeMatch_escape_append_percent hq _).mpr ⟨t2, t3, rfl, hmq⟩

theorem rowMatchesSearch_iff {s : Store} {q : String} (hq : '\\' ∉ q.toList)
    {i : IssueRow} :
    rowMatchesSearch s (likePattern q) i = true ↔
      (ContainsCI q i.title ∨
        (∃ d, i.description = some d ∧ ContainsCI q d) ∨
        ∃ c ∈ s.comments, c.issue_id = i.id ∧ ContainsCI q c.content) := by
  rw [rowMatchesSearch]
  cases hdesc : i.description with
  | none =>
    simp only [hdesc, Bool.or_eq_true, List.any_eq_true, Bool.and_eq_true,
      decide_eq_true_eq, likeMatch_likePattern_iff q hq]
    constructor
    · rintro ((h | h) | h)
      · exact Or.inl h
      · exact absurd h (by simp)
      · obtain ⟨c, hc, hcid, hcq⟩ := h
        exact Or.inr (Or.inr ⟨c, hc, hcid, hcq⟩)
    · rintro (h | ⟨d, hd, _⟩ | ⟨c, hc, hcid, hcq⟩)
      · exact Or.inl (Or.inl h)
      · exact absurd hd (by simp)
      · exact Or.inr ⟨c, hc, hcid, hcq⟩
  | some d =>
    simp only [hdesc, Bool.or_eq_true, List.any_eq_true, Bool.and_eq_true,
      decide_eq_true_eq, likeMatch_likePattern_iff q hq]
    constructor
    · rintro ((h | h) | h)
      · exact Or.inl h
      · exact Or.inr (Or.inl ⟨d, rfl, h⟩)
      · obtain ⟨c, hc, hcid, hcq⟩ := h
        exact Or.inr (Or.inr ⟨c, hc, hcid, hcq⟩)
    · rintro (h | ⟨d', hd', hq'⟩ | ⟨c, hc, hcid, hcq⟩)
      · exact Or.inl (Or.inl h)
      · injection hd' with e
        exact Or.inl (Or.inr (e ▸ hq'))
      · exact Or.inr ⟨c, hc, hcid, hcq⟩

/-- C9 amended: for every query with no backslash, search_issues returns
exactly the issues whose title, description, or some comment contains the
query as a case-insensitive substring, with % and _ in the query matched
literally. -/
theorem search_issues_exact (s : Store) (q : String) (hq : '\\' ∉ q.toList)
    (i : IssueRow) :
    i ∈ search_issues s q ↔
      i ∈ s.issues ∧
        (ContainsCI q i.title ∨
          (∃ d, i.description = some d ∧ ContainsCI q d) ∨
          ∃ c ∈ s.comments, c.issue_id = i.id ∧ ContainsCI q c.content) := by
  rw [search_issues, List.mem_reverse, List.mem_filter, rowMatchesSearch_iff hq]

theorem search_issues_exact_witness :
    ('\\' ∉ "%bar".toList) ∧
    (mkIssue 1 "foo%barbaz" "open" none ∈ search_issues stTwoTitles "%bar" ↔
      mkIssue 1 "foo%barbaz" "open" none ∈ stTwoTitles.issues ∧
        (ContainsCI "%bar" (mkIssue 1 "foo%barbaz" "open" none).title ∨
          (∃ d, (mkIssue 1 "foo%barbaz" "open" none).description = some d ∧
            ContainsCI "%bar" d) ∨
          ∃ c ∈ stTwoTitles.comments,
            c.issue_id = (mkIssue 1 "foo%barbaz" "open" none).id ∧
              ContainsCI "%bar" c.content)) :=
  ⟨by decide, search_issues_exact stTwoTitles "%bar" (by decide) _⟩

/-- C9 counterexample: the one-character query consisting of a backslash
returns the issue titled "ab%", although neither the title nor the (absent)
description nor any comment contains that query as a substring, so
search_issues does not return exactly the case-insensitive-substring
matches for every query string. -/
theorem search_issues_backslash_counterexample :
    mkIssue 1 "ab%" "open" none ∈ search_issues stSearch "\\" ∧
    ¬ContainsCI "\\" "ab%" ∧
    (mkIssue 1 "ab%" "open" none).description = none ∧
    stSearch.comments = [] := by
  refine ⟨by decide, ?_, rfl, rfl⟩
  intro hcon
  unfold ContainsCI at hcon
  obtain ⟨a, b, h⟩ := hcon
  have hm : lowerChar '\\' ∈ "\\".toList.map lowerChar := by decide
  have hmem : lowerChar '\\' ∈ "ab%".toList.map lowerChar := by
    rw [h]
    exact List.mem_append.mpr (Or.inl (List.mem_append.mpr (Or.inr hm)))
  exact absurd hmem (by decide)

/-- C10: there is a query containing a backslash (the one-character query
consisting of the escape character itself) for which search_issues returns
an issue whose title, description and comments do not contain that query as
a substring: the escaping rewrites % and _ only, so the query backslash
escapes the appended % and the pattern matches any title ending in a
literal percent sign. -/
theorem search_issues_backslash_escapes :
    ∃ q : String, '\\' ∈ q.toList ∧ ∃ (s : Store) (i : IssueRow),
      i ∈ search_issues s q ∧ ¬ContainsCI q i.title ∧
      i.description = none ∧ s.comments = [] := by
  refine ⟨"\\", by decide, stSearch2, mkIssue 1 "sale -50%" "open" none,
    by decide, ?_, rfl, rfl⟩
  intro hcon
  unfold ContainsCI at hcon
  obtain ⟨a, b, h⟩ := hcon
  have hm : lowerChar '\\' ∈ "\\".toList.map lowerChar := by decide
  have hmem : lowerChar '\\' ∈
      (mkIssue 1 "sale -50%" "open" none).title.toList.map lowerChar := by
    rw [h]
    exact List.mem_append.mpr (Or.inl (List.mem_append.mpr (Or.inr hm)))
  exact absurd hmem (by decide)

example : search_issues stTwoTitles "%bar" = [mkIssue 1 "foo%barbaz" "open" none] := by
  decide

example : (list_ready_issues stDep).map IssueRow.id = [2] ∧
    (list_blocked_issues stDep).map IssueRow.id = [1] := by
  decide
